import Mathlib

/-
  Verification of the BirdRiskSim real-time bird-strike risk pipeline.

  Shallow embedding of the Python sources in
  bird_strike_risk_calculator/ (bds_server.py, byte_track.py,
  triangulate.py, route_based_risk_calculator.py, bds_tcp_client.py).

  Conventions used throughout the embedding:
  * Python floats are modelled as exact rationals.
  * A comparison of the form  sqrt e < t  (resp.  sqrt e > t ) on a
    nonnegative radicand e is embedded by the algebraically equivalent
    rational test  0 < t and e < t^2  (resp.  t < 0 or t^2 < e ), so the
    whole development stays executable.
  * Python float('inf') results are modelled with Option, none meaning
    infinity (for TTC values) or failure (for triangulation).
  * Greedy loops over a shrinking index set are embedded with an explicit
    fuel argument equal to the initial list length, which strictly bounds
    the number of outer iterations of the Python loop.
-/

namespace BirdRiskSim

/-! ## Risk engine: bds_server.py, RealTimePipeline -/

/-- Embedding of the comparison  sqrt e < t  for a nonnegative radicand e:
equivalent to 0 < t together with e < t^2. -/
def sqrtLtB (e t : ℚ) : Bool :=
  decide (0 < t) && decide (e < t ^ 2)

/-- Embedding of the comparison  sqrt e > t  for a nonnegative radicand e:
equivalent to t < 0 or t^2 < e. -/
def sqrtGtB (e t : ℚ) : Bool :=
  decide (t < 0) || decide (t ^ 2 < e)

/-- Source: bds_server.py line 1007, the level_priority dict inside
get_stable_risk_level; an unknown level has no priority (KeyError). -/
def level_priority (l : String) : Option ℕ :=
  if l = "BR_LOW" then some 0
  else if l = "BR_MEDIUM" then some 1
  else if l = "BR_HIGH" then some 2
  else none

/-- Source: bds_server.py lines 798-873, RealTimePipeline.calculate_dynamic_risk_level.
Distance floors, then TTC floors, then the weighted score path with the
2x scale-up.  ttc = none models float('inf'). -/
def calculate_dynamic_risk_level (distance relative_speed : ℚ) (ttc : Option ℚ) :
    ℚ × String :=
  if distance < 50 then (180, "BR_HIGH")
  else if distance < 100 then (120, "BR_MEDIUM")
  else
    let ttcFloor : Option (ℚ × String) :=
      match ttc with
      | none => none
      | some t =>
          if t < 5 then some (180, "BR_HIGH")
          else if t < 12 then some (120, "BR_MEDIUM")
          else none
    match ttcFloor with
    | some r => r
    | none =>
        let distance_score : ℚ :=
          if distance ≤ 50 then 100
          else if distance ≤ 100 then 80 - (distance - 50) * (6 / 10)
          else if distance ≤ 200 then 50 - (distance - 100) * (3 / 10)
          else max 0 (20 - (distance - 200) * (5 / 100))
        let speed_score : ℚ :=
          if relative_speed ≤ 0 then 0
          else if relative_speed ≤ 10 then relative_speed * 3
          else if relative_speed ≤ 30 then 30 + (relative_speed - 10) * (5 / 2)
          else min 100 (80 + (relative_speed - 30) * 1)
        let ttc_score : ℚ :=
          match ttc with
          | none => 0
          | some t =>
              if t ≤ 5 then 100
              else if t ≤ 15 then 100 - (t - 5) * 5
              else if t ≤ 30 then 50 - (t - 15) * 2
              else max 0 (20 - (t - 30) * (1 / 2))
        let risk_score := (distance_score * (4 / 10) + speed_score * (3 / 10) +
          ttc_score * (3 / 10)) * 2
        if 80 ≤ risk_score then (risk_score, "BR_HIGH")
        else if 60 ≤ risk_score then (risk_score, "BR_MEDIUM")
        else (risk_score, "BR_LOW")

/-- The hysteresis state owned by RealTimePipeline (bds_server.py lines 95-97). -/
structure RiskState where
  last_risk_level : String
  risk_level_downgrade_counter : ℕ
  downgrade_threshold : ℕ
deriving DecidableEq, Repr

/-- Source: bds_server.py lines 992-1043, RealTimePipeline.get_stable_risk_level.
Returns the updated state together with the reported (score, level).
An unknown level string raises KeyError before any mutation, so the
state is returned unchanged in that case. -/
def get_stable_risk_level (s : RiskState) (new_risk_score : ℚ)
    (new_risk_level : String) : RiskState × ℚ × String :=
  match level_priority new_risk_level, level_priority s.last_risk_level with
  | some pc, some pp =>
      if pp < pc then
        ({ s with last_risk_level := new_risk_level,
                  risk_level_downgrade_counter := 0 },
         new_risk_score, new_risk_level)
      else if pc < pp then
        let c := s.risk_level_downgrade_counter + 1
        if s.downgrade_threshold ≤ c then
          ({ s with last_risk_level := new_risk_level,
                    risk_level_downgrade_counter := 0 },
           new_risk_score, new_risk_level)
        else
          let prev_score : ℚ :=
            if s.last_risk_level = "BR_MEDIUM" then 120
            else if s.last_risk_level = "BR_HIGH" then 180
            else new_risk_score
          ({ s with risk_level_downgrade_counter := c },
           prev_score, s.last_risk_level)
      else
        ({ s with risk_level_downgrade_counter := 0 },
         new_risk_score, new_risk_level)
  | _, _ => (s, new_risk_score, new_risk_level)

/-- Feeding a sequence of per-frame raw (score, level) pairs through the
stabilizer, collecting the reported pairs in order. -/
def run_stable (s : RiskState) : List (ℚ × String) → RiskState × List (ℚ × String)
  | [] => (s, [])
  | i :: is =>
      let r := get_stable_risk_level s i.1 i.2
      let rest := run_stable r.1 is
      (rest.1, r.2 :: rest.2)

/-! ## Time-to-collision: bds_server.py, calculate_realtime_ttc -/

/-- The track dictionaries handed to the TTC computation: XZ position and
XZ velocity series (bds_server.py lines 1085-1119 build them). -/
structure Track where
  positions : List (ℚ × ℚ)
  velocities : List (ℚ × ℚ)
deriving DecidableEq, Repr

/-- Source: bds_server.py lines 736-796, RealTimePipeline.calculate_realtime_ttc.
none models float('inf').  The source computes
  d = sqrt(dx^2+dz^2), m = sqrt(rvx^2+rvz^2),
  closing = -(rvx*dx+rvz*dz)/d,  ttc = d/closing;
here those are embedded exactly on the squared quantities:
  d < 1e-6  iff  dx^2+dz^2 < (1e-6)^2,
  m < 1e-6  iff  rvx^2+rvz^2 < (1e-6)^2,
  closing ≤ 0  iff  -(rvx*dx+rvz*dz) ≤ 0   (given d > 0),
  ttc = d/closing = (dx^2+dz^2)/(-(rvx*dx+rvz*dz)). -/
def calculate_realtime_ttc (airplane_track flock_track : Track) : Option ℚ :=
  match airplane_track.positions.getLast?, flock_track.positions.getLast?,
        airplane_track.velocities.getLast?, flock_track.velocities.getLast? with
  | some ap, some fp, some av, some fv =>
      let dx := ap.1 - fp.1
      let dz := ap.2 - fp.2
      let distSq := dx ^ 2 + dz ^ 2
      let rvx := av.1 - fv.1
      let rvz := av.2 - fv.2
      let relSq := rvx ^ 2 + rvz ^ 2
      if distSq < (1 / 1000000) ^ 2 ∨ relSq < (1 / 1000000) ^ 2 then none
      else
        let closingNum := -(rvx * dx + rvz * dz)
        if closingNum ≤ 0 then none
        else some (max (1 / 10) (min 300 (distSq / closingNum)))
  | _, _, _, _ => none

/-! ## TCP wire framing: bds_tcp_client.py, BDSTCPClient.send_message -/

/-- Python  n.to_bytes(4, byteorder='big')  for n < 2^32. -/
def toBytesBE4 (n : ℕ) : List ℕ :=
  [n / 2 ^ 24 % 256, n / 2 ^ 16 % 256, n / 2 ^ 8 % 256, n % 256]

/-- Big-endian byte-list decoding. -/
def fromBytesBE (bs : List ℕ) : ℕ :=
  bs.foldl (fun a b => a * 256 + b) 0

/-- Source: bds_tcp_client.py lines 181-202, BDSTCPClient.send_message.
The JSON serialization and UTF-8 encoding of the message dict are
external (json.dumps / str.encode); the resulting byte string is the
payload parameter.  Returns the bytes written to the socket, or none
when nothing is sent (not connected, or int.to_bytes overflows before
the first sendall). -/
def send_message (connected : Bool) (payload : List ℕ) : Option (List ℕ) :=
  if ¬ connected then none
  else if payload.length < 2 ^ 32 then some (toBytesBE4 payload.length ++ payload)
  else none

/-! ## Session tracker: byte_track.py -/

/-- The fields of a triangulated detection dict the tracker reads
(byte_track.py lines 169-175, 234). -/
structure TrackDet where
  cls : String
  x : ℚ
  z : ℚ
deriving DecidableEq, Repr

/-- The current_session_data dict (byte_track.py lines 263-270).
Frames are integers; position and velocity samples are (frame, x, z)
resp. (frame, vx, vz). -/
structure SessionData where
  start_frame : ℤ
  last_frame : ℤ
  airplane_positions : List (ℤ × ℚ × ℚ)
  flock_positions : List (ℤ × ℚ × ℚ)
  airplane_velocities : List (ℤ × ℚ × ℚ)
  flock_velocities : List (ℤ × ℚ × ℚ)
deriving DecidableEq, Repr

/-- A completed Session (byte_track.py lines 16-29). -/
structure Session where
  session_id : ℕ
  start_frame : ℤ
  end_frame : ℤ
  airplane_positions : List (ℤ × ℚ × ℚ)
  flock_positions : List (ℤ × ℚ × ℚ)
  airplane_velocities : List (ℤ × ℚ × ℚ)
  flock_velocities : List (ℤ × ℚ × ℚ)
deriving DecidableEq, Repr

/-- Source: byte_track.py lines 27-29, Session.get_session_length. -/
def Session.get_session_length (s : Session) : ℤ :=
  s.end_frame - s.start_frame + 1

/-- Source: byte_track.py lines 117-136, Session._recalculate_velocities:
consecutive finite differences with dt = (f2 - f1)/30 (seconds at 30 fps),
keeping only pairs with dt > 0. -/
def recalculate_velocities : List (ℤ × ℚ × ℚ) → List (ℤ × ℚ × ℚ)
  | [] => []
  | [_] => []
  | p :: q :: rest =>
      let dt : ℚ := ((q.1 : ℚ) - (p.1 : ℚ)) / 30
      (if 0 < dt then
        [(q.1, (q.2.1 - p.2.1) / dt, (q.2.2 - p.2.2) / dt)]
      else []) ++ recalculate_velocities (q :: rest)

/-- The mutable state of SessionTracker (byte_track.py lines 141-163).
current_session_data = none models the initial empty dict. -/
structure SessionTracker where
  position_jump_threshold : ℚ
  jump_duration_threshold : ℕ
  min_session_length : ℤ
  sessions : List Session
  current_session_id : ℕ
  in_session : Bool
  current_session_data : Option SessionData
  last_airplane_position : Option (ℚ × ℚ)
  last_frame_number : Option ℤ
  jump_start_frame : Option ℤ
  jump_frames_count : ℕ
deriving DecidableEq, Repr

/-- Source: byte_track.py lines 141-163, SessionTracker.__init__. -/
def SessionTracker.init (position_jump_threshold : ℚ)
    (jump_duration_threshold : ℕ) (min_session_length : ℤ) : SessionTracker where
  position_jump_threshold := position_jump_threshold
  jump_duration_threshold := jump_duration_threshold
  min_session_length := min_session_length
  sessions := []
  current_session_id := 0
  in_session := false
  current_session_data := none
  last_airplane_position := none
  last_frame_number := none
  jump_start_frame := none
  jump_frames_count := 0

/-- Source: byte_track.py lines 258-274, SessionTracker._start_new_session. -/
def SessionTracker.start_new_session (s : SessionTracker) (start_frame : ℤ) :
    SessionTracker :=
  { s with
    current_session_id := s.current_session_id + 1
    in_session := true
    current_session_data := some
      { start_frame := start_frame
        last_frame := start_frame
        airplane_positions := []
        flock_positions := []
        airplane_velocities := []
        flock_velocities := [] }
    jump_start_frame := none
    jump_frames_count := 0 }

/-- Source: byte_track.py lines 276-300, SessionTracker._end_current_session.
A session shorter than min_session_length is discarded; otherwise it is
appended to the history. -/
def SessionTracker.end_current_session (s : SessionTracker) : SessionTracker :=
  if ¬ s.in_session then s
  else
    match s.current_session_data with
    | none => s
    | some d =>
        let session_length := d.last_frame - d.start_frame + 1
        if session_length < s.min_session_length then { s with in_session := false }
        else
          { s with
            in_session := false
            sessions := s.sessions ++
              [{ session_id := s.current_session_id
                 start_frame := d.start_frame
                 end_frame := d.last_frame
                 airplane_positions := d.airplane_positions
                 flock_positions := d.flock_positions
                 airplane_velocities := d.airplane_velocities
                 flock_velocities := d.flock_velocities }] }

/-- Source: byte_track.py lines 165-256, SessionTracker.update.
The airplane branch first updates the jump counters against the previous
airplane position, then manages the session state, then appends position
and velocity samples (velocities use the previous position and frame as
they were before this call), and finally stores the current position. -/
def SessionTracker.update (s : SessionTracker) (frame_number : ℤ)
    (detections : List TrackDet) : SessionTracker :=
  let airplane_detections := detections.filter (fun d => d.cls == "Airplane")
  let flock_detections := detections.filter (fun d => d.cls == "Flock")
  match airplane_detections with
  | airplane :: _ =>
      let current_pos := (airplane.x, airplane.z)
      let s1 :=
        match s.last_airplane_position with
        | some lp =>
            let distSq := (current_pos.1 - lp.1) ^ 2 + (current_pos.2 - lp.2) ^ 2
            if sqrtGtB distSq s.position_jump_threshold then
              match s.jump_start_frame with
              | none => { s with jump_start_frame := some frame_number,
                                 jump_frames_count := 1 }
              | some _ => { s with jump_frames_count := s.jump_frames_count + 1 }
            else { s with jump_start_frame := none, jump_frames_count := 0 }
        | none => s
      let sustained_jump := s1.jump_duration_threshold ≤ s1.jump_frames_count
      let s2 :=
        if ¬ s1.in_session then s1.start_new_session frame_number
        else if sustained_jump then
          (s1.end_current_session).start_new_session frame_number
        else s1
      let s3 :=
        if s2.in_session then
          match s2.current_session_data with
          | some d =>
              let d1 :=
                { d with
                  last_frame := frame_number
                  airplane_positions := d.airplane_positions ++
                    [(frame_number, airplane.x, airplane.z)] }
              let d2 :=
                match s.last_airplane_position, s.last_frame_number with
                | some lp, some lf =>
                    if lf < frame_number then
                      let dt : ℚ := (frame_number : ℚ) - (lf : ℚ)
                      { d1 with airplane_velocities := d1.airplane_velocities ++
                          [(frame_number, (airplane.x - lp.1) / dt,
                            (airplane.z - lp.2) / dt)] }
                    else d1
                | _, _ => d1
              let d3 :=
                match flock_detections with
                | flock :: _ =>
                    let prevLast := d2.flock_positions.getLast?
                    let d2f :=
                      { d2 with flock_positions := d2.flock_positions ++
                          [(frame_number, flock.x, flock.z)] }
                    match prevLast with
                    | some prev =>
                        let dtz := frame_number - prev.1
                        if 0 < dtz then
                          { d2f with flock_velocities := d2f.flock_velocities ++
                              [(frame_number, (flock.x - prev.2.1) / (dtz : ℚ),
                                (flock.z - prev.2.2) / (dtz : ℚ))] }
                        else d2f
                    | none => d2f
                | [] => d2
              { s2 with current_session_data := some d3 }
          | none => s2
        else s2
      { s3 with last_airplane_position := some current_pos,
                last_frame_number := some frame_number }
  | [] =>
      let s1 := if s.in_session then s.end_current_session else s
      { s1 with jump_start_frame := none, jump_frames_count := 0 }

/-- Source: byte_track.py lines 302-305, SessionTracker.finalize. -/
def SessionTracker.finalize (s : SessionTracker) : SessionTracker :=
  if s.in_session then s.end_current_session else s

/-- Driving the tracker over a sequence of (frame, detections) inputs. -/
def runTracker (s : SessionTracker) (steps : List (ℤ × List TrackDet)) :
    SessionTracker :=
  steps.foldl (fun t p => t.update p.1 p.2) s

/-- One of the virtual tracks handed to the risk engine
(bds_server.py lines 1085-1119). -/
structure ActiveTrack where
  track_id : ℕ
  class_name : String
  positions : List (ℚ × ℚ)
  velocities : List (ℚ × ℚ)
  frames : List ℤ
  session_id : ℕ
  last_update : ℤ
deriving DecidableEq, Repr

/-- Source: bds_server.py lines 1085-1119,
RealTimePipeline.get_active_tracks_from_sessions: the current in-progress
session (whatever its length) is projected to an Airplane track and a
Flock track. -/
def get_active_tracks_from_sessions (s : SessionTracker) : List ActiveTrack :=
  match s.in_session, s.current_session_data with
  | true, some d =>
      let a : List ActiveTrack :=
        if d.airplane_positions.isEmpty then []
        else
          [{ track_id := 1
             class_name := "Airplane"
             positions := d.airplane_positions.map (fun p => (p.2.1, p.2.2))
             velocities := d.airplane_velocities.map (fun v => (v.2.1, v.2.2))
             frames := d.airplane_positions.map (fun p => p.1)
             session_id := s.current_session_id
             last_update := d.last_frame }]
      let f : List ActiveTrack :=
        if d.flock_positions.isEmpty then []
        else
          [{ track_id := 2
             class_name := "Flock"
             positions := d.flock_positions.map (fun p => (p.2.1, p.2.2))
             velocities := d.flock_velocities.map (fun v => (v.2.1, v.2.2))
             frames := d.flock_positions.map (fun p => p.1)
             session_id := s.current_session_id
             last_update := d.last_frame }]
      a ++ f
  | _, _ => []

/-! ## Triangulator: triangulate.py -/

/-- A detection dict of the realtime pipeline
(triangulate.py line 568: camera, class, center, confidence). -/
structure Det where
  camera : String
  cls : String
  center : ℚ × ℚ
  confidence : ℚ
deriving DecidableEq, Repr

/-- A match produced by match_objects_simple. -/
structure SimpleMatch where
  cls : String
  det1 : Det
  det2 : Det
deriving DecidableEq, Repr

/-- Removes the first element satisfying p, returning it and the rest. -/
def extractFirst (p : α → Bool) : List α → Option (α × List α)
  | [] => none
  | x :: xs =>
      if p x then some (x, xs)
      else
        match extractFirst p xs with
        | some (y, ys) => some (y, x :: ys)
        | none => none

/-- Source: triangulate.py lines 488-516, match_objects_simple: each det1
is paired with the first not-yet-used det2 of the same class. -/
def match_objects_simple : List Det → List Det → List SimpleMatch
  | [], _ => []
  | d :: ds, rem =>
      match extractFirst (fun e => e.cls == d.cls) rem with
      | some (e, rem') => { cls := d.cls, det1 := d, det2 := e } ::
          match_objects_simple ds rem'
      | none => match_objects_simple ds rem

/-- A YOLO xywh box: pixel center (x, y) and size (w, h). -/
structure BoxQ where
  x : ℚ
  y : ℚ
  w : ℚ
  h : ℚ
deriving DecidableEq, Repr

/-- One raw YOLO detection: box, class name, confidence
(triangulate.py lines 435, 444). -/
structure YoloDet where
  box : BoxQ
  cls : String
  conf : ℚ
deriving DecidableEq, Repr

/-- A match produced by match_objects_yolo. -/
structure YMatch where
  cls : String
  pt1 : ℚ × ℚ
  pt2 : ℚ × ℚ
  conf1 : ℚ
  conf2 : ℚ
deriving DecidableEq, Repr

/-- Python dict assignment  d[k] = v : replace in place if the key is
present, else append. -/
def updateAssoc (l : List (String × α)) (k : String) (v : α) :
    List (String × α) :=
  if l.any (fun e => e.1 == k) then
    l.map (fun e => if e.1 == k then (k, v) else e)
  else l ++ [(k, v)]

/-- Python dict lookup returning none when absent. -/
def lookupAssoc (l : List (String × α)) (k : String) : Option α :=
  (l.find? (fun e => e.1 == k)).map (fun e => e.2)

/-- The others1/others2 dicts of match_objects_yolo (triangulate.py
lines 434-449): for every non-Flock class the LAST detection of that
class wins, because each assignment overwrites the previous one. -/
def buildOthers (r : List YoloDet) : List (String × BoxQ × ℚ) :=
  r.foldl (fun acc d =>
    if d.cls == "Flock" then acc else updateAssoc acc d.cls (d.box, d.conf)) []

/-- The flock list of match_objects_yolo (boxes with class Flock, in order). -/
def flocksOf (r : List YoloDet) : List (BoxQ × ℚ) :=
  (r.filter (fun d => d.cls == "Flock")).map (fun d => (d.box, d.conf))

/-- Embedding of  dist(a, b) < thr  on pixel centers, where dist is the
Euclidean norm (triangulate.py line 307); the i = j case of the distance
matrix is literally 0 and the formula below also reduces to 0 < thr then. -/
def closeB2 (thr : ℚ) (a b : BoxQ × ℚ) : Bool :=
  sqrtLtB ((a.1.x - b.1.x) ^ 2 + (a.1.y - b.1.y) ^ 2) thr

/-- The greedy grouping loop of merge_nearby_flocks_2d (triangulate.py
lines 310-328), with fuel bounding the outer iterations.  At each step
the unused detections are  f :: rest ; nearby is computed over all of
them (including f itself, matching distances[i,i] = 0), and the group is
[f] ++ nearby, so f appears twice whenever 0 < thr. -/
def groupGreedy2 (thr : ℚ) : ℕ → List (BoxQ × ℚ) → List (List (BoxQ × ℚ))
  | 0, _ => []
  | _ + 1, [] => []
  | fuel + 1, f :: rest =>
      let nearby := (f :: rest).filter (fun g => closeB2 thr f g)
      if nearby.isEmpty then
        [f] :: groupGreedy2 thr fuel rest
      else
        ([f] ++ nearby) :: groupGreedy2 thr fuel
          (rest.filter (fun g => ¬ closeB2 thr f g))

/-- Merging one group (triangulate.py lines 332-352): a singleton group is
kept; otherwise confidence-weighted center, componentwise max size and
mean confidence. -/
def mergeGroup2 : List (BoxQ × ℚ) → BoxQ × ℚ
  | [] => ({ x := 0, y := 0, w := 0, h := 0 }, 0)
  | [g] => g
  | g :: gs =>
      let group := g :: gs
      let confSum := (group.map (fun e => e.2)).sum
      let cx := (group.map (fun e => e.1.x * e.2)).sum / confSum
      let cy := (group.map (fun e => e.1.y * e.2)).sum / confSum
      let mw := (gs.map (fun e => e.1.w)).foldl max g.1.w
      let mh := (gs.map (fun e => e.1.h)).foldl max g.1.h
      let mconf := confSum / (group.length : ℚ)
      ({ x := cx, y := cy, w := mw, h := mh }, mconf)

/-- Source: triangulate.py lines 285-354, merge_nearby_flocks_2d
(default pixel threshold 100 at the call sites). -/
def merge_nearby_flocks_2d (thr : ℚ) (flocks : List (BoxQ × ℚ)) :
    List (BoxQ × ℚ) :=
  (groupGreedy2 thr flocks.length flocks).map mergeGroup2

/-- Source: triangulate.py lines 425-486, match_objects_yolo: flocks are
2d-merged per camera and matched all-pairs; every other class keeps one
(the last) detection per camera and the two representatives are matched
when the class occurs in both cameras.  Python iterates the common
classes in set order; the embedding uses the first camera's dict order
(the theorems below only depend on membership). -/
def match_objects_yolo (r1 r2 : List YoloDet) : List YMatch :=
  let others1 := buildOthers r1
  let others2 := buildOthers r2
  let merged_flocks1 := merge_nearby_flocks_2d 100 (flocksOf r1)
  let merged_flocks2 := merge_nearby_flocks_2d 100 (flocksOf r2)
  let flockMatches := merged_flocks1.flatMap (fun b1 =>
    merged_flocks2.map (fun b2 =>
      { cls := "Flock", pt1 := (b1.1.x, b1.1.y), pt2 := (b2.1.x, b2.1.y),
        conf1 := b1.2, conf2 := b2.2 }))
  let common := (others1.map (fun e => e.1)).filter
    (fun k => (lookupAssoc others2 k).isSome)
  let otherMatches := common.filterMap (fun k =>
    match lookupAssoc others1 k, lookupAssoc others2 k with
    | some (b1, c1), some (b2, c2) =>
        some { cls := k, pt1 := (b1.x, b1.y), pt2 := (b2.x, b2.y),
               conf1 := c1, conf2 := c2 }
    | _, _ => none)
  flockMatches ++ otherMatches

/-! ### The DLT triangulation primitive -/

/-- A homogeneous 4-vector. -/
structure V4 where
  x : ℚ
  y : ℚ
  z : ℚ
  w : ℚ
deriving DecidableEq, Repr

/-- A 3x4 projection matrix, as rows. -/
structure M34 where
  r0 : V4
  r1 : V4
  r2 : V4
deriving DecidableEq, Repr

instance : Inhabited M34 :=
  ⟨{ r0 := ⟨0, 0, 0, 0⟩, r1 := ⟨0, 0, 0, 0⟩, r2 := ⟨0, 0, 0, 0⟩ }⟩

/-- A 4x4 matrix, as rows. -/
structure M44 where
  a0 : V4
  a1 : V4
  a2 : V4
  a3 : V4
deriving DecidableEq, Repr

def V4.smul (c : ℚ) (v : V4) : V4 := ⟨c * v.x, c * v.y, c * v.z, c * v.w⟩

def V4.sub (u v : V4) : V4 := ⟨u.x - v.x, u.y - v.y, u.z - v.z, u.w - v.w⟩

def V4.dot (u v : V4) : ℚ := u.x * v.x + u.y * v.y + u.z * v.z + u.w * v.w

/-- The standard DLT system for two views: for projection matrix P and
pixel (u, v) the rows are u*P.r2 - P.r0 and v*P.r2 - P.r1. -/
def dltMatrix (P1 P2 : M34) (pt1 pt2 : ℚ × ℚ) : M44 where
  a0 := V4.sub (V4.smul pt1.1 P1.r2) P1.r0
  a1 := V4.sub (V4.smul pt1.2 P1.r2) P1.r1
  a2 := V4.sub (V4.smul pt2.1 P2.r2) P2.r0
  a3 := V4.sub (V4.smul pt2.2 P2.r2) P2.r1

/-- Determinant of a 3x3 matrix given entrywise. -/
def det3 (a b c d e f g h i : ℚ) : ℚ :=
  a * (e * i - f * h) - b * (d * i - f * g) + c * (d * h - e * g)

/-- Drops one coordinate of a 4-vector. -/
def V4.drop (v : V4) : Fin 4 → ℚ × ℚ × ℚ
  | 0 => (v.y, v.z, v.w)
  | 1 => (v.x, v.z, v.w)
  | 2 => (v.x, v.y, v.w)
  | 3 => (v.x, v.y, v.z)

/-- The three rows of A other than row k, in order. -/
def M44.rowsWithout (A : M44) : Fin 4 → V4 × V4 × V4
  | 0 => (A.a1, A.a2, A.a3)
  | 1 => (A.a0, A.a2, A.a3)
  | 2 => (A.a0, A.a1, A.a3)
  | 3 => (A.a0, A.a1, A.a2)

/-- Cofactor of A at row k, column j. -/
def M44.cof (A : M44) (k j : Fin 4) : ℚ :=
  let rows := A.rowsWithout k
  let p := rows.1.drop j
  let q := rows.2.1.drop j
  let r := rows.2.2.drop j
  let s : ℚ := if (k.val + j.val) % 2 = 0 then 1 else -1
  s * det3 p.1 p.2.1 p.2.2 q.1 q.2.1 q.2.2 r.1 r.2.1 r.2.2

/-- The vector of cofactors along row k; it is the k-th column of the
adjugate, hence lies in the kernel of A whenever det A = 0. -/
def M44.cofRow (A : M44) (k : Fin 4) : V4 :=
  ⟨A.cof k 0, A.cof k 1, A.cof k 2, A.cof k 3⟩

/-- Determinant of A, by cofactor expansion along the last row. -/
def M44.det (A : M44) : ℚ := V4.dot A.a3 (A.cofRow 3)

/-- Type of the triangulation primitive: from two pixel points and two
projection matrices to a homogeneous solution.  The embedded pipeline
functions are parametric in this primitive, which stands for the external
cv2.triangulatePoints call. -/
def TriPrim : Type :=
  (ℚ × ℚ) → (ℚ × ℚ) → M34 → M34 → Option V4

/-- Modelled from the spec: cv2.triangulatePoints is an external library
call; section 4.D says to "solve the 4x4 SVD that makes the two projection
equations consistent".  The model is exact on the consistent case: when
the DLT matrix is singular it returns a nonzero kernel vector (a nonzero
adjugate column, which every correct SVD solver would also return up to
scale); on a full-rank system (the purely least-squares case) the model
returns none. -/
def dltKernelPrim : TriPrim := fun pt1 pt2 P1 P2 =>
  let A := dltMatrix P1 P2 pt1 pt2
  if A.det ≠ 0 then none
  else
    let cands := [A.cofRow 3, A.cofRow 2, A.cofRow 1, A.cofRow 0]
    cands.find? (fun v => v ≠ (⟨0, 0, 0, 0⟩ : V4))

/-- Source: triangulate.py lines 522-557, triangulate_point: run the DLT,
then dehomogenize by the 4th coordinate, rejecting w = 0; a failure of
the primitive is caught and mapped to None. -/
def triangulate_point (prim : TriPrim) (pt1 pt2 : ℚ × ℚ) (P1 P2 : M34) :
    Option (ℚ × ℚ × ℚ) :=
  match prim pt1 pt2 P1 P2 with
  | none => none
  | some h => if h.w ≠ 0 then some (h.x / h.w, h.y / h.w, h.z / h.w) else none

/-! ### Realtime triangulation path -/

/-- A triangulated point dict of the realtime path
(triangulate.py lines 614-622). -/
structure TPoint where
  frame : ℤ
  cls : String
  x : ℚ
  y : ℚ
  z : ℚ
  confidence : ℚ
  cameras : String
deriving DecidableEq, Repr

/-- XZ-plane closeness test of merge_nearby_flocks_3d
(triangulate.py lines 394-399). -/
def closeB3 (thr : ℚ) (a b : TPoint) : Bool :=
  sqrtLtB ((a.x - b.x) ^ 2 + (a.z - b.z) ^ 2) thr

/-- The greedy grouping loop of merge_nearby_flocks_3d (triangulate.py
lines 381-401), fuel-bounded: the seed is grouped with every later unused
flock within thr of the seed in the XZ plane. -/
def groupGreedy3 (thr : ℚ) : ℕ → List TPoint → List (TPoint × List TPoint)
  | 0, _ => []
  | _ + 1, [] => []
  | fuel + 1, f :: rest =>
      (f, rest.filter (fun g => closeB3 thr f g)) ::
        groupGreedy3 thr fuel (rest.filter (fun g => ¬ closeB3 thr f g))

/-- Merging one 3d group (triangulate.py lines 403-421): singleton groups
are kept, larger groups are replaced by the coordinate-wise mean. -/
def mergeGroup3 (seed : TPoint) (near : List TPoint) : TPoint :=
  if near.isEmpty then seed
  else
    let g := seed :: near
    let n : ℚ := (g.length : ℚ)
    { frame := seed.frame
      cls := "Flock"
      x := (g.map (fun p => p.x)).sum / n
      y := (g.map (fun p => p.y)).sum / n
      z := (g.map (fun p => p.z)).sum / n
      confidence := (g.map (fun p => p.confidence)).sum / n
      cameras := "merged_" ++ toString g.length ++ "_flocks" }

/-- Source: triangulate.py lines 356-423, merge_nearby_flocks_3d. -/
def merge_nearby_flocks_3d (points : List TPoint) (distance_threshold : ℚ) :
    List TPoint :=
  if points.isEmpty then points
  else
    let flocks := points.filter (fun p => p.cls == "Flock")
    let others := points.filter (fun p => p.cls != "Flock")
    if flocks.length ≤ 1 then points
    else
      ((groupGreedy3 distance_threshold flocks.length flocks).map
        (fun g => mergeGroup3 g.1 g.2)) ++ others

/-- First-occurrence-ordered list of keys, mirroring Python dict insertion
order when grouping. -/
def orderedKeys (keyOf : α → String) (l : List α) : List String :=
  l.foldl (fun acc d =>
    if acc.any (fun k => k == keyOf d) then acc else acc ++ [keyOf d]) []

/-- All ordered pairs (i, j) with i before j, mirroring the nested
for-loops over camera indices. -/
def pairsOf : List α → List (α × α)
  | [] => []
  | c :: cs => cs.map (fun d => (c, d)) ++ pairsOf cs

/-- Source: triangulate.py lines 559-628, triangulate_objects_realtime.
Detections are grouped per camera, every camera pair is matched with
match_objects_simple and triangulated; every non-None dehomogenized
point is appended (there is no coordinate filter on this path), then
nearby flocks are 3d-merged. -/
def triangulate_objects_realtime (prim : TriPrim) (detections : List Det)
    (projection_matrices : List M34) (camera_letters : List String)
    (frame_id : ℤ) (distance_threshold : ℚ) : List TPoint :=
  if projection_matrices.length < 2 then []
  else
    let available_cameras := orderedKeys (fun d => d.camera) detections
    let camDets := fun c => detections.filter (fun d => d.camera == c)
    let triangulated_points :=
      (pairsOf available_cameras).flatMap (fun pr =>
        let cam1 := pr.1
        let cam2 := pr.2
        let cam1_idx := camera_letters.findIdx (fun l => l == cam1)
        let cam2_idx := camera_letters.findIdx (fun l => l == cam2)
        let P1 := projection_matrices.getD cam1_idx default
        let P2 := projection_matrices.getD cam2_idx default
        (match_objects_simple (camDets cam1) (camDets cam2)).filterMap
          (fun m =>
            (triangulate_point prim m.det1.center m.det2.center P1 P2).map
              (fun p =>
                { frame := frame_id
                  cls := m.cls
                  x := p.1
                  y := p.2.1
                  z := p.2.2
                  confidence := (m.det1.confidence + m.det2.confidence) / 2
                  cameras := "Camera_" ++ cam1 ++ "-Camera_" ++ cam2 })))
    if triangulated_points.isEmpty then triangulated_points
    else merge_nearby_flocks_3d triangulated_points distance_threshold

/-! ### Batch triangulation path -/

/-- A per-pair candidate point of process_frame_multicam
(triangulate.py lines 704-714). -/
structure CandPoint where
  frame : ℤ
  cls : String
  x : ℚ
  y : ℚ
  z : ℚ
  confidence : ℚ
  cameras : String
  num_detected_cameras : ℕ
  total_cameras : ℕ
deriving DecidableEq, Repr

/-- A merged output point of process_frame_multicam
(triangulate.py lines 738-748). -/
structure MergedPoint where
  frame : ℤ
  cls : String
  x : ℚ
  y : ℚ
  z : ℚ
  confidence : ℚ
  num_detected_cameras : ℕ
  total_cameras : ℕ
  num_camera_pairs : ℕ
deriving DecidableEq, Repr

/-- Step 2 of process_frame_multicam (triangulate.py lines 673-714): all
camera-pair candidates, with the |coordinate| > 10000 outlier filter. -/
def batchCandidates (prim : TriPrim) (detections : List (Option (List YoloDet)))
    (projection_matrices : List M34) (frame : ℤ) (valid_cameras : List ℕ)
    (num_cameras : ℕ) : List CandPoint :=
  (pairsOf valid_cameras).flatMap (fun pr =>
    let r1 := (detections.getD pr.1 none).getD []
    let r2 := (detections.getD pr.2 none).getD []
    (match_objects_yolo r1 r2).filterMap (fun m =>
      match triangulate_point prim m.pt1 m.pt2
          (projection_matrices.getD pr.1 default)
          (projection_matrices.getD pr.2 default) with
      | none => none
      | some p =>
          if 10000 < |p.1| ∨ 10000 < |p.2.1| ∨ 10000 < |p.2.2| then none
          else
            some { frame := frame
                   cls := m.cls
                   x := p.1
                   y := p.2.1
                   z := p.2.2
                   confidence := (m.conf1 + m.conf2) / 2
                   cameras := "pair"
                   num_detected_cameras := valid_cameras.length
                   total_cameras := num_cameras
                   : CandPoint }))

/-- Step 3 of process_frame_multicam (triangulate.py lines 716-748):
group the candidates per (frame, class) — every candidate carries the
same frame, so the groups are the classes in first-occurrence order —
and average each group. -/
def mergeByClass (triangulated_points : List CandPoint) (frame : ℤ)
    (num_cameras : ℕ) : List MergedPoint :=
  (orderedKeys (fun p => p.cls) triangulated_points).map (fun c =>
    let g := triangulated_points.filter (fun p => p.cls == c)
    let n : ℚ := (g.length : ℚ)
    let maxDet : ℕ := (g.map (fun p => p.num_detected_cameras)).foldl max 0
    { frame := frame
      cls := c
      x := (g.map (fun p => p.x)).sum / n
      y := (g.map (fun p => p.y)).sum / n
      z := (g.map (fun p => p.z)).sum / n
      confidence := ((g.map (fun p => p.confidence)).sum / n) *
        ((maxDet : ℚ) / (num_cameras : ℚ))
      num_detected_cameras := maxDet
      total_cameras := num_cameras
      num_camera_pairs := g.length })

/-- Source: triangulate.py lines 630-750, process_frame_multicam.  The
detector output per camera is the parameter (some r = a nonempty YOLO
result, none = no detection or a detector error), and the triangulation
primitive is the parameter prim. -/
def process_frame_multicam (prim : TriPrim) (detections : List (Option (List YoloDet)))
    (projection_matrices : List M34) (frame : ℤ) : List MergedPoint :=
  let num_cameras := detections.length
  if num_cameras < 2 then []
  else
    let valid_cameras := (List.range num_cameras).filter
      (fun i => (detections.getD i none).isSome)
    if valid_cameras.length < 2 then []
    else
      mergeByClass
        (batchCandidates prim detections projection_matrices frame
          valid_cameras num_cameras) frame num_cameras

/-! ## Route store: route_based_risk_calculator.py -/

/-- The parsed JSON content of a route file, with every key the loader
touches made optional (a missing key raises KeyError in the source). -/
structure RouteJson where
  pathName : Option String
  waypoints : Option (List (ℚ × ℚ × ℚ))
  routePoints : Option (List (ℚ × ℚ × ℚ))
  exportTime : Option String
  totalWaypoints : Option ℕ
deriving DecidableEq, Repr

/-- A file in the routes directory: its name and its parsed content
(none when the file is unreadable or not valid JSON). -/
structure RouteFile where
  name : String
  content : Option RouteJson
deriving DecidableEq, Repr

/-- Source: route_based_risk_calculator.py lines 18-25, FlightRoute. -/
structure FlightRoute where
  path_name : String
  waypoints : List (ℚ × ℚ × ℚ)
  route_points : List (ℚ × ℚ × ℚ)
  export_time : String
  total_waypoints : ℕ
deriving DecidableEq, Repr

/-- Source: route_based_risk_calculator.py lines 63-91,
RouteBasedRiskCalculator._load_route_from_json: the loader reads
data['waypoints'], data['routePoints'], data['pathName'],
data['exportTime'] and data['totalWaypoints']; any missing key (and any
parse failure) raises, is caught, logged and mapped to None.  There is no
fallback from routePoints to waypoints. -/
def load_route_from_json (content : Option RouteJson) : Option FlightRoute :=
  match content with
  | none => none
  | some d =>
      match d.waypoints, d.routePoints, d.pathName, d.exportTime,
            d.totalWaypoints with
      | some w, some rp, some pn, some et, some tw =>
          some { path_name := pn, waypoints := w, route_points := rp,
                 export_time := et, total_waypoints := tw }
      | _, _, _, _, _ => none

/-- Python dict assignment for the flight_routes dict, keyed by path name. -/
def updateRoutes (l : List (String × FlightRoute)) (k : String)
    (v : FlightRoute) : List (String × FlightRoute) :=
  if l.any (fun e => e.1 == k) then
    l.map (fun e => if e.1 == k then (k, v) else e)
  else l ++ [(k, v)]

/-- Python str.endswith, as a suffix test on the character sequence. -/
def strEndsWith (s post : String) : Bool :=
  post.data.isSuffixOf s.data

/-- Python str.startswith, as a prefix test on the character sequence. -/
def strStartsWith (s pre : String) : Bool :=
  pre.data.isPrefixOf s.data

/-- One iteration of the _load_all_routes loop: skip auto_processor_state
files, load the route, insert it on success, leave the dict unchanged on
failure. -/
def loadRouteStep (acc : List (String × FlightRoute)) (f : RouteFile) :
    List (String × FlightRoute) :=
  if strStartsWith f.name "auto_processor_state" then acc
  else
    match load_route_from_json f.content with
    | some r => updateRoutes acc r.path_name r
    | none => acc

/-- Source: route_based_risk_calculator.py lines 42-61,
RouteBasedRiskCalculator._load_all_routes: only *.json files are
considered, auto_processor_state files are skipped, every load failure is
logged and skipped, and loading continues with the remaining files. -/
def load_all_routes (files : List RouteFile) : List (String × FlightRoute) :=
  (files.filter (fun f => strEndsWith f.name ".json")).foldl loadRouteStep []

/-- Source: route_based_risk_calculator.py lines 93-119,
calculate_distance_to_route: the polyline actually queried is
route_points (waypoints are never consulted).  The embedding returns the
minimum squared distance (the source compares and returns Euclidean
distances; the argmin is the same point), none modelling the
float('inf') of an unknown route or an empty polyline. -/
def calculate_distance_to_route (routes : List (String × FlightRoute))
    (route_name : String) (p : ℚ × ℚ × ℚ) : Option ℚ :=
  match lookupAssoc routes route_name with
  | none => none
  | some r =>
      (r.route_points.map (fun q =>
        (p.1 - q.1) ^ 2 + (p.2.1 - q.2.1) ^ 2 + (p.2.2 - q.2.2) ^ 2)).foldl
        (fun acc d => some (match acc with | none => d | some m => min m d))
        none

/-! ## Concrete fixtures used by witnesses and counterexamples -/

/-- Projection matrix of a camera whose image x, y read world x, y and
whose depth row is z + w: the world point (a, 0, 0) projects to the
pixel (a, 0). -/
def sampleP1 : M34 := ⟨⟨1, 0, 0, 0⟩, ⟨0, 1, 0, 0⟩, ⟨0, 0, 1, 1⟩⟩

/-- Projection matrix of a camera looking along x: the world point
(a, 0, 0) with a > 0 projects to the pixel (0, 0). -/
def sampleP2 : M34 := ⟨⟨0, 0, 1, 0⟩, ⟨0, 1, 0, 0⟩, ⟨1, 0, 0, 0⟩⟩

/-- Two exact detections of the world point (20000, 0, 0): pixel
(20000, 0) in camera A and pixel (0, 0) in camera B. -/
def farDets : List Det :=
  [⟨"A", "Airplane", (20000, 0), 1⟩, ⟨"B", "Airplane", (0, 0), 1⟩]

/-- Two exact single-detection YOLO results of the world point (4, 0, 0)
for the batch path. -/
def nearBatchDets : List (Option (List YoloDet)) :=
  [some [⟨⟨4, 0, 5, 5⟩, "Airplane", 1⟩], some [⟨⟨0, 0, 5, 5⟩, "Airplane", 1⟩]]

/-- The single merged point the batch path produces on nearBatchDets. -/
def nearBatchPoint : MergedPoint :=
  ⟨7, "Airplane", 4, 0, 0, 1, 2, 2, 1⟩

/-- Three triangulated points: two flocks 10 * sqrt 2 metres apart in the
XZ plane and one airplane. -/
def mergeSample : List TPoint :=
  [⟨1, "Flock", 0, 0, 0, 1, "c"⟩, ⟨1, "Airplane", 5, 5, 5, 1, "c"⟩,
   ⟨1, "Flock", 10, 0, 10, 1 / 2, "c"⟩]

/-- The merged flock produced from mergeSample at threshold 100. -/
def mergedFlockPoint : TPoint :=
  ⟨1, "Flock", 5, 0, 5, 3 / 4, "merged_2_flocks"⟩

/-- An in-progress session with one airplane sample at (0, 0) and one
flock sample at (7, 0), both on frame 0. -/
def sampleSessionData : SessionData :=
  ⟨0, 0, [(0, 0, 0)], [(0, 7, 0)], [], []⟩

/-- A tracker one frame into a session, as left by an airplane at (0, 0)
and a flock at (7, 0) on frame 0. -/
def sampleTracker : SessionTracker where
  position_jump_threshold := 50
  jump_duration_threshold := 5
  min_session_length := 50
  sessions := []
  current_session_id := 1
  in_session := true
  current_session_data := some sampleSessionData
  last_airplane_position := some (0, 0)
  last_frame_number := some 0
  jump_start_frame := none
  jump_frames_count := 0

/-- A route file content with waypoints but no routePoints key. -/
def routeNoRoutePoints : RouteJson :=
  ⟨some "Path_A", some [(0, 0, 0)], none, some "t", some 1⟩

/-- A complete route file content. -/
def routeComplete : RouteJson :=
  ⟨some "Path_B", some [(1, 1, 1)], some [(2, 2, 2)], some "t", some 1⟩

/-- Camera 1 YOLO result with TWO airplane detections: first box at
(1, 2), last box at (3, 4). -/
def yoloR1 : List YoloDet :=
  [⟨⟨1, 2, 5, 5⟩, "Airplane", 9 / 10⟩, ⟨⟨3, 4, 5, 5⟩, "Airplane", 8 / 10⟩]

/-- Camera 2 YOLO result with one airplane detection at (5, 6). -/
def yoloR2 : List YoloDet :=
  [⟨⟨5, 6, 5, 5⟩, "Airplane", 7 / 10⟩]

/-- Camera A simple-path detections: two airplanes. -/
def simpleD1 : List Det :=
  [⟨"A", "Airplane", (0, 0), 1⟩, ⟨"A", "Airplane", (1, 1), 1⟩]

/-- Camera B simple-path detections: two airplanes. -/
def simpleD2 : List Det :=
  [⟨"B", "Airplane", (2, 2), 1⟩, ⟨"B", "Airplane", (3, 3), 1⟩]

/-! # Theorems -/

/-! ## C4 -/

/-- Claim C4: for every relative speed and every TTC, the risk level at a
hybrid distance of exactly 50 m.  The code returns (120, BR_MEDIUM) there
— the  distance < 50  floor excludes its boundary, falling through to the
distance < 100  MEDIUM floor which returns immediately — although the
inline comment on the HIGH return documents the floor as "50m or below"
and the spec's boundary case demands HIGH at exactly 50 m. -/
theorem c4_distance_50_gives_medium (relative_speed : ℚ) (ttc : Option ℚ) :
    calculate_dynamic_risk_level 50 relative_speed ttc = (120, "BR_MEDIUM") := by
  norm_num [calculate_dynamic_risk_level]

/-! ## C1 -/

/-- Claim C1 counterexample: starting from reported HIGH with
downgrade_threshold = 5, four raw-LOW frames followed by one raw-MEDIUM
frame make the stabilizer report MEDIUM on the fifth frame, not HIGH:
the downgrade counter counts consecutive frames at ANY strictly lower
level, not per lower level. -/
theorem c1_counterexample :
    (run_stable ⟨"BR_HIGH", 0, 5⟩
        [(10, "BR_LOW"), (10, "BR_LOW"), (10, "BR_LOW"), (10, "BR_LOW"),
         (70, "BR_MEDIUM")]).2.map Prod.snd =
      ["BR_HIGH", "BR_HIGH", "BR_HIGH", "BR_HIGH", "BR_MEDIUM"] ∧
    "BR_MEDIUM" ≠ "BR_HIGH" := by
  decide

/-- Claim C1 (amended): upgrades take effect on the frame they occur;
the downgrade counter is shared across all strictly lower levels, so the
threshold-th consecutive strictly-lower frame applies the downgrade and
reports that frame's level; below the threshold the previous level is
reported.  Hence 4 LOW frames then a MEDIUM frame, from HIGH with
threshold 5, report HIGH four times and then MEDIUM. -/
theorem c1_hysteresis :
    (∀ (s : RiskState) (sc : ℚ) (lv : String) (pc pp : ℕ),
        level_priority lv = some pc →
        level_priority s.last_risk_level = some pp →
        pp < pc →
        (get_stable_risk_level s sc lv).2.2 = lv) ∧
    (∀ (s : RiskState) (sc : ℚ) (lv : String) (pc pp : ℕ),
        level_priority lv = some pc →
        level_priority s.last_risk_level = some pp →
        pc < pp →
        (s.downgrade_threshold ≤ s.risk_level_downgrade_counter + 1 →
            (get_stable_risk_level s sc lv).2.2 = lv) ∧
        (s.risk_level_downgrade_counter + 1 < s.downgrade_threshold →
            (get_stable_risk_level s sc lv).2.2 = s.last_risk_level)) ∧
    (run_stable ⟨"BR_HIGH", 0, 5⟩
        [(10, "BR_LOW"), (10, "BR_LOW"), (10, "BR_LOW"), (10, "BR_LOW"),
         (70, "BR_MEDIUM")]).2.map Prod.snd =
      ["BR_HIGH", "BR_HIGH", "BR_HIGH", "BR_HIGH", "BR_MEDIUM"] := by
  refine ⟨?_, ?_, by decide⟩
  · intro s sc lv pc pp h1 h2 h3
    simp [get_stable_risk_level, h1, h2, h3]
  · intro s sc lv pc pp h1 h2 h3
    have hnlt : ¬ pp < pc := by omega
    constructor
    · intro hle
      simp [get_stable_risk_level, h1, h2, hnlt, h3, hle]
    · intro hlt
      have : ¬ s.downgrade_threshold ≤ s.risk_level_downgrade_counter + 1 := by
        omega
      simp [get_stable_risk_level, h1, h2, hnlt, h3, this]

/-- Witness for c1_hysteresis at concrete inputs: an upgrade from LOW to
HIGH is reported immediately, and a downgrade from HIGH is reported on
the frame the counter reaches the threshold. -/
theorem c1_hysteresis_witness :
    (get_stable_risk_level ⟨"BR_LOW", 0, 5⟩ 180 "BR_HIGH").2.2 = "BR_HIGH" ∧
    (get_stable_risk_level ⟨"BR_HIGH", 4, 5⟩ 10 "BR_LOW").2.2 = "BR_LOW" :=
  ⟨c1_hysteresis.1 ⟨"BR_LOW", 0, 5⟩ 180 "BR_HIGH" 2 0 (by decide) (by decide)
      (by decide),
   (c1_hysteresis.2.1 ⟨"BR_HIGH", 4, 5⟩ 10 "BR_LOW" 0 2 (by decide) (by decide)
      (by decide)).1 (by decide)⟩

/-! ## C5 -/

/-- Claim C5 counterexample: with airplane at (1, 0) and flock at (0, 0)
(XZ distance exactly 1) and relative velocity (-1e-7, 1), the closing
speed is 1e-7 ≤ ε = 1e-6, so the claim demands TTC = ∞; the code only
rejects closing speeds ≤ 0 (the ε test is applied to the relative-speed
magnitude, which is about 1 here), computes 1 / 1e-7 = 1e7 s and clamps
it, returning 300 s. -/
theorem c5_counterexample :
    calculate_realtime_ttc ⟨[(1, 0)], [(-(1 / 10000000), 1)]⟩
        ⟨[(0, 0)], [(0, 0)]⟩ = some 300 ∧
    -((-(1 / 10000000) - 0) * (1 - 0) + (1 - 0) * (0 - 0)) ≤ (1 / 1000000 : ℚ) ∧
    some (300 : ℚ) ≠ none := by
  refine ⟨?_, by norm_num, by simp⟩
  simp only [calculate_realtime_ttc, List.getLast?]
  norm_num [min_def, max_def]

/-- Claim C5 (amended): with d² the squared XZ distance, m² the squared
relative-velocity magnitude and c = −(relative velocity · Δposition)
(which equals closing speed times distance), the TTC is ∞ exactly when
d² < ε², or m² < ε², or c ≤ 0 (closing speed not positive); otherwise it
is d/v_close = d²/c clamped to [0.1 s, 300 s].  A closing speed in
(0, ε] with magnitude ≥ ε is NOT mapped to ∞. -/
theorem c5_ttc (tA tF : Track) (ap fp av fv : ℚ × ℚ)
    (hap : tA.positions.getLast? = some ap)
    (hfp : tF.positions.getLast? = some fp)
    (hav : tA.velocities.getLast? = some av)
    (hfv : tF.velocities.getLast? = some fv) :
    (((ap.1 - fp.1) ^ 2 + (ap.2 - fp.2) ^ 2 < (1 / 1000000) ^ 2 ∨
      (av.1 - fv.1) ^ 2 + (av.2 - fv.2) ^ 2 < (1 / 1000000) ^ 2 ∨
      -((av.1 - fv.1) * (ap.1 - fp.1) + (av.2 - fv.2) * (ap.2 - fp.2)) ≤ 0) →
        calculate_realtime_ttc tA tF = none) ∧
    ((1 / 1000000) ^ 2 ≤ (ap.1 - fp.1) ^ 2 + (ap.2 - fp.2) ^ 2 →
     (1 / 1000000) ^ 2 ≤ (av.1 - fv.1) ^ 2 + (av.2 - fv.2) ^ 2 →
     0 < -((av.1 - fv.1) * (ap.1 - fp.1) + (av.2 - fv.2) * (ap.2 - fp.2)) →
        calculate_realtime_ttc tA tF =
          some (max (1 / 10) (min 300
            (((ap.1 - fp.1) ^ 2 + (ap.2 - fp.2) ^ 2) /
              -((av.1 - fv.1) * (ap.1 - fp.1) + (av.2 - fv.2) * (ap.2 - fp.2)))))) := by
  simp only [calculate_realtime_ttc, hap, hfp, hav, hfv]
  constructor
  · intro h
    split_ifs with g1 g2
    · rfl
    · rfl
    · exfalso
      push_neg at g1 g2
      rcases h with h | h | h
      · exact absurd h (not_lt.mpr g1.1)
      · exact absurd h (not_lt.mpr g1.2)
      · exact absurd h (not_le.mpr g2)
  · intro h1 h2 h3
    split_ifs with g1 g2
    · exfalso
      rcases g1 with g | g
      · exact absurd g (not_lt.mpr h1)
      · exact absurd g (not_lt.mpr h2)
    · exact absurd g2 (not_le.mpr h3)
    · rfl

/-- Witness for c5_ttc: airplane at (3, 0) approaching the flock at the
origin with relative velocity (-5, 0) gives TTC = 9/15 s, within the
clamp interval. -/
theorem c5_ttc_witness :
    calculate_realtime_ttc ⟨[(3, 0)], [(-5, 0)]⟩ ⟨[(0, 0)], [(0, 0)]⟩ =
      some (max (1 / 10) (min 300
        ((((3 : ℚ) - 0) ^ 2 + ((0 : ℚ) - 0) ^ 2) /
          -(((-5 : ℚ) - 0) * ((3 : ℚ) - 0) + ((0 : ℚ) - 0) * ((0 : ℚ) - 0))))) :=
  (c5_ttc ⟨[(3, 0)], [(-5, 0)]⟩ ⟨[(0, 0)], [(0, 0)]⟩ (3, 0) (0, 0) (-5, 0) (0, 0)
      rfl rfl rfl rfl).2 (by norm_num) (by norm_num) (by norm_num)

/-! ## C9 -/

/-- Claim C9: when connected, the bytes written for a message whose
serialized UTF-8 payload has length L < 2^32 are exactly a 4-byte
big-endian encoding of L followed by the L payload bytes; the length
prefix decodes back to L. -/
theorem c9_wire_framing (payload : List ℕ) (h : payload.length < 2 ^ 32) :
    send_message true payload = some (toBytesBE4 payload.length ++ payload) ∧
    (toBytesBE4 payload.length).length = 4 ∧
    fromBytesBE (toBytesBE4 payload.length) = payload.length := by
  have h' : payload.length < 4294967296 := by omega
  refine ⟨by simp [send_message, h'], rfl, ?_⟩
  simp only [fromBytesBE, toBytesBE4, List.foldl]
  omega

/-- Witness for c9_wire_framing on the 3-byte payload [123, 34, 125]. -/
theorem c9_wire_framing_witness :
    send_message true [123, 34, 125] =
      some (toBytesBE4 ([123, 34, 125] : List ℕ).length ++ [123, 34, 125]) ∧
    (toBytesBE4 ([123, 34, 125] : List ℕ).length).length = 4 ∧
    fromBytesBE (toBytesBE4 ([123, 34, 125] : List ℕ).length) =
      ([123, 34, 125] : List ℕ).length :=
  c9_wire_framing [123, 34, 125] (by norm_num)

/-! ## C3 -/

/-- Claim C3 counterexample: airplane at x = 0 on frame 0 and x = 30 on
frame 1.  update records the velocity sample (1, 30, 0): the stored vx
is the plain per-frame difference 30, not the claimed per-second value
(30 - 0) / ((1 - 0)/30) = 900. -/
theorem c3_counterexample :
    ((((SessionTracker.init 50 5 50).update 0 [⟨"Airplane", 0, 0⟩]).update 1
        [⟨"Airplane", 30, 0⟩]).current_session_data.map
      (fun d => d.airplane_velocities)) = some [(1, 30, 0)] ∧
    (30 : ℚ) ≠ (30 - 0) / (((1 : ℚ) - 0) / 30) := by
  constructor
  · simp [SessionTracker.init, SessionTracker.update, SessionTracker.start_new_session,
      SessionTracker.end_current_session, sqrtGtB, List.getLast?]
    norm_num
  · norm_num

/-- Claim C3 (amended): the velocity samples SessionTracker.update
records are plain per-frame finite differences Δposition/(f2 - f1), for
the airplane series (against the previous airplane position) and the
flock series (against the previous flock sample) alike; the
per-second 30 fps scaling of the claim is applied only by
Session._recalculate_velocities in the cleaning path. -/
theorem c3_velocity_semantics :
    (∀ (f1 f2 : ℤ) (x1 z1 x2 z2 : ℚ) (rest : List (ℤ × ℚ × ℚ)), f1 < f2 →
        recalculate_velocities ((f1, x1, z1) :: (f2, x2, z2) :: rest) =
          (f2, (x2 - x1) / (((f2 : ℚ) - (f1 : ℚ)) / 30),
               (z2 - z1) / (((f2 : ℚ) - (f1 : ℚ)) / 30)) ::
            recalculate_velocities ((f2, x2, z2) :: rest)) ∧
    (∀ (s : SessionTracker) (d : SessionData) (f lf pf : ℤ)
        (lx lz ax az fx fz px pz : ℚ),
        s.in_session = true →
        s.current_session_data = some d →
        s.last_airplane_position = some (lx, lz) →
        s.last_frame_number = some lf →
        lf < f →
        sqrtGtB ((ax - lx) ^ 2 + (az - lz) ^ 2) s.position_jump_threshold = false →
        1 ≤ s.jump_duration_threshold →
        d.flock_positions.getLast? = some (pf, px, pz) →
        pf < f →
        (s.update f [⟨"Airplane", ax, az⟩, ⟨"Flock", fx, fz⟩]).current_session_data.map
            (fun e => (e.airplane_velocities, e.flock_velocities)) =
          some (d.airplane_velocities ++
              [(f, (ax - lx) / ((f : ℚ) - (lf : ℚ)), (az - lz) / ((f : ℚ) - (lf : ℚ)))],
            d.flock_velocities ++
              [(f, (fx - px) / ((f - pf : ℤ) : ℚ), (fz - pz) / ((f - pf : ℤ) : ℚ))])) := by
  constructor
  · intro f1 f2 x1 z1 x2 z2 rest h
    have hdt : (0 : ℚ) < ((f2 : ℚ) - (f1 : ℚ)) / 30 := by
      have hc : (f1 : ℚ) < (f2 : ℚ) := by exact_mod_cast h
      have hc' : (0 : ℚ) < (f2 : ℚ) - (f1 : ℚ) := by linarith
      exact div_pos hc' (by norm_num)
    simp [recalculate_velocities, hdt]
  · intro s d f lf pf lx lz ax az fx fz px pz hin hcur hlast hlf hflt hJ hjdt hpf hpflt
    have hsus : ¬ s.jump_duration_threshold ≤ 0 := by omega
    have hdtz : (0 : ℤ) < f - pf := by omega
    simp [SessionTracker.update, hin, hcur, hlast, hlf, hflt, hJ, hsus, hpf, hdtz]

/-- Witness for c3_velocity_semantics at a concrete in-session state. -/
theorem c3_velocity_semantics_witness :
    (sampleTracker.update 1
          [⟨"Airplane", 30, 0⟩, ⟨"Flock", 10, 0⟩]).current_session_data.map
        (fun e => (e.airplane_velocities, e.flock_velocities)) =
      some (sampleSessionData.airplane_velocities ++
          [(1, ((30 : ℚ) - 0) / ((1 : ℚ) - (0 : ℚ)),
            ((0 : ℚ) - 0) / ((1 : ℚ) - (0 : ℚ)))],
        sampleSessionData.flock_velocities ++
          [(1, ((10 : ℚ) - 7) / ((((1 : ℤ) - 0 : ℤ)) : ℚ),
            ((0 : ℚ) - 0) / ((((1 : ℤ) - 0 : ℤ)) : ℚ))]) :=
  c3_velocity_semantics.2 sampleTracker sampleSessionData 1 0 0 0 0 30 0 10 0 7 0
    rfl rfl rfl rfl (by norm_num)
    (by simp [sampleTracker, sqrtGtB]; norm_num)
    (by simp [sampleTracker])
    (by simp [sampleSessionData, List.getLast?])
    (by norm_num)

/-! ## C7 -/

/-- Claim C7 counterexample: immediately after the first airplane frame
the current session has length 1 < min_session_length = 50, yet
get_active_tracks_from_sessions already hands it to the risk engine as a
non-empty active-tracks list. -/
theorem c7_counterexample :
    (get_active_tracks_from_sessions
        ((SessionTracker.init 50 5 50).update 0 [⟨"Airplane", 0, 0⟩])).length = 1 ∧
    (((SessionTracker.init 50 5 50).update 0 [⟨"Airplane", 0, 0⟩]).current_session_data.map
      (fun d => d.last_frame - d.start_frame + 1)) = some 1 ∧
    ¬ ((50 : ℤ) ≤ 1) := by
  refine ⟨?_, ?_, by norm_num⟩
  · simp [SessionTracker.init, SessionTracker.update, SessionTracker.start_new_session,
      get_active_tracks_from_sessions, sqrtGtB]
  · simp [SessionTracker.init, SessionTracker.update, SessionTracker.start_new_session,
      sqrtGtB]

/-- end_current_session leaves the minimum-length parameter unchanged. -/
theorem end_current_session_min (s : SessionTracker) :
    (s.end_current_session).min_session_length = s.min_session_length := by
  simp only [SessionTracker.end_current_session]
  split
  · rfl
  · split
    · rfl
    · split <;> rfl

/-- Any session in the history after end_current_session either was
already there or satisfies the minimum-length bound. -/
theorem end_current_session_sessions (s : SessionTracker) (sess : Session)
    (h : sess ∈ (s.end_current_session).sessions) :
    sess ∈ s.sessions ∨
      s.min_session_length ≤ sess.end_frame - sess.start_frame + 1 := by
  simp only [SessionTracker.end_current_session] at h
  split at h
  · exact Or.inl h
  · split at h
    · exact Or.inl h
    · split at h
      · exact Or.inl h
      · rename_i d hlen
        simp only [List.mem_append, List.mem_singleton] at h
        rcases h with h | h
        · exact Or.inl h
        · subst h
          right
          simpa using not_lt.mp hlen

/-- update leaves the minimum-length parameter unchanged. -/
theorem update_min (s : SessionTracker) (f : ℤ) (dets : List TrackDet) :
    (s.update f dets).min_session_length = s.min_session_length := by
  simp only [SessionTracker.update]
  repeat' split
  all_goals first
    | rfl
    | exact end_current_session_min _

/-- Any session in the history after an update step either was already
there or satisfies the minimum-length bound. -/
theorem update_sessions (s : SessionTracker) (f : ℤ) (dets : List TrackDet)
    (sess : Session) (h : sess ∈ (s.update f dets).sessions) :
    sess ∈ s.sessions ∨
      s.min_session_length ≤ sess.end_frame - sess.start_frame + 1 := by
  simp only [SessionTracker.update] at h
  repeat' split at h
  all_goals first
    | exact Or.inl h
    | (have h2 := end_current_session_sessions _ _ h
       exact h2)

/-- runTracker leaves the minimum-length parameter unchanged. -/
theorem runTracker_min (steps : List (ℤ × List TrackDet)) :
    ∀ s : SessionTracker,
      (runTracker s steps).min_session_length = s.min_session_length := by
  induction steps with
  | nil => intro s; rfl
  | cons p ps ih =>
      intro s
      simp only [runTracker, List.foldl_cons] at *
      rw [ih]
      exact update_min s p.1 p.2

/-- Any session in the history after a run either was already in the
initial history or satisfies the minimum-length bound. -/
theorem runTracker_sessions (steps : List (ℤ × List TrackDet)) :
    ∀ (s : SessionTracker) (sess : Session),
      sess ∈ (runTracker s steps).sessions →
      sess ∈ s.sessions ∨
        s.min_session_length ≤ sess.end_frame - sess.start_frame + 1 := by
  induction steps with
  | nil => intro s sess h; exact Or.inl h
  | cons p ps ih =>
      intro s sess h
      simp only [runTracker, List.foldl_cons] at h
      rcases ih (s.update p.1 p.2) sess h with h' | h'
      · exact update_sessions s p.1 p.2 sess h'
      · rw [update_min] at h'
        exact Or.inr h'

/-- Claim C7 (amended): every session the tracker appends to its
completed-session history has length end - start + 1 at least
min_session_length (shorter sessions are discarded at close); the
active-tracks projection, by contrast, exposes the current in-progress
session to the risk engine with no length check at all. -/
theorem c7_session_exposure :
    (∀ (pjt : ℚ) (jdt : ℕ) (msl : ℤ) (steps : List (ℤ × List TrackDet))
        (sess : Session),
        sess ∈ ((runTracker (SessionTracker.init pjt jdt msl) steps).finalize).sessions →
        msl ≤ sess.end_frame - sess.start_frame + 1) ∧
    (∀ (s : SessionTracker) (d : SessionData), s.in_session = true →
        s.current_session_data = some d → d.airplane_positions ≠ [] →
        get_active_tracks_from_sessions s ≠ []) := by
  constructor
  · intro pjt jdt msl steps sess h
    have hfin : sess ∈ (runTracker (SessionTracker.init pjt jdt msl) steps).sessions ∨
        (runTracker (SessionTracker.init pjt jdt msl) steps).min_session_length ≤
          sess.end_frame - sess.start_frame + 1 := by
      unfold SessionTracker.finalize at h
      split at h
      · exact end_current_session_sessions _ _ h
      · exact Or.inl h
    have hmin : (runTracker (SessionTracker.init pjt jdt msl) steps).min_session_length =
        msl := runTracker_min steps _
    rcases hfin with h' | h'
    · rcases runTracker_sessions steps _ sess h' with h'' | h''
      · simp [SessionTracker.init] at h''
      · simpa [SessionTracker.init] using h''
    · rwa [hmin] at h'
  · intro s d hin hcur hpos
    simp [get_active_tracks_from_sessions, hin, hcur, List.isEmpty_iff, hpos]

/-- Witness for c7_session_exposure: a two-frame run with
min_session_length = 1 leaves one session of length 1 in the history,
and the one-frame-old sampleTracker session is already exposed. -/
theorem c7_session_exposure_witness :
    (1 : ℤ) ≤ 0 - 0 + 1 ∧ get_active_tracks_from_sessions sampleTracker ≠ [] :=
  ⟨c7_session_exposure.1 50 5 1 [(0, [⟨"Airplane", 0, 0⟩]), (1, [])]
      ⟨1, 0, 0, [(0, 0, 0)], [], [], []⟩
      (by simp [runTracker, SessionTracker.init, SessionTracker.update,
        SessionTracker.start_new_session, SessionTracker.end_current_session,
        SessionTracker.finalize, sqrtGtB]),
   c7_session_exposure.2 sampleTracker sampleSessionData rfl rfl
      (by simp [sampleSessionData])⟩

/-! ## C8 -/

/-- Claim C8 counterexample: a route file with pathName and a waypoints
list but no routePoints key does NOT load (the loader reads
data['routePoints'] unconditionally; the KeyError is caught and the
route skipped) — there is no waypoints fallback; the other routes are
still loaded. -/
theorem c8_counterexample :
    load_route_from_json (some routeNoRoutePoints) = none ∧
    (load_all_routes [⟨"a.json", some routeNoRoutePoints⟩,
        ⟨"b.json", some routeComplete⟩]).map (fun e => e.1) = ["Path_B"] := by
  constructor
  · rfl
  · rfl

/-- Claim C8 (amended): routePoints is required, not merely preferred — a
route file without a routePoints key fails to load and is skipped
(waypoints are parsed but never used as a fallback polyline); a file that
fails to load leaves the route dictionary untouched while loading
continues with the remaining files; the polyline retained for a
successfully loaded route is exactly its routePoints list. -/
theorem c8_route_loading :
    (∀ d : RouteJson, d.routePoints = none → load_route_from_json (some d) = none) ∧
    (∀ (l1 l2 : List RouteFile) (f : RouteFile),
        load_route_from_json f.content = none →
        load_all_routes (l1 ++ f :: l2) = load_all_routes (l1 ++ l2)) ∧
    (∀ (c : Option RouteJson) (r : FlightRoute),
        load_route_from_json c = some r →
        c.map (fun d => d.routePoints) = some (some r.route_points)) := by
  refine ⟨?_, ?_, ?_⟩
  · rintro ⟨pn, w, rp, et, tw⟩ h
    simp only at h
    subst h
    cases w <;> rfl
  · intro l1 l2 f hf
    have hstep : ∀ acc, loadRouteStep acc f = acc := by
      intro acc
      unfold loadRouteStep
      rw [hf]
      split <;> rfl
    simp only [load_all_routes, List.filter_append, List.filter_cons]
    cases hend : strEndsWith f.name ".json" <;>
      simp only [Bool.false_eq_true, if_false, if_true, List.foldl_append,
        List.foldl_cons, hstep]
  · intro c r h
    match c with
    | none => simp [load_route_from_json] at h
    | some ⟨pn, w, rp, et, tw⟩ =>
        cases pn <;> cases w <;> cases rp <;> cases et <;> cases tw <;>
          simp only [load_route_from_json] at h <;>
          first
          | (obtain rfl := Option.some.inj h
             rfl)
          | simp at h

/-- Witness for c8_route_loading: the incomplete sample file is skipped
and loading the remaining list is unaffected by its presence. -/
theorem c8_route_loading_witness :
    load_route_from_json (some routeNoRoutePoints) = none ∧
    load_all_routes ([⟨"b.json", some routeComplete⟩] ++
        ⟨"a.json", some routeNoRoutePoints⟩ :: []) =
      load_all_routes ([⟨"b.json", some routeComplete⟩] ++ []) ∧
    (some routeComplete : Option RouteJson).map (fun d => d.routePoints) =
      some (some [(2, 2, 2)]) :=
  ⟨c8_route_loading.1 routeNoRoutePoints rfl,
   c8_route_loading.2.1 [⟨"b.json", some routeComplete⟩] []
     ⟨"a.json", some routeNoRoutePoints⟩ rfl,
   c8_route_loading.2.2 (some routeComplete)
     ⟨"Path_B", [(1, 1, 1)], [(2, 2, 2)], "t", 1⟩ rfl⟩

/-! ## C10 -/

/-- Every group of the greedy 3d grouping has a seed from the input and
members from the input. -/
theorem groupGreedy3_mem (thr : ℚ) :
    ∀ (fuel : ℕ) (l : List TPoint) (pr : TPoint × List TPoint),
      pr ∈ groupGreedy3 thr fuel l → pr.1 ∈ l ∧ ∀ q ∈ pr.2, q ∈ l := by
  intro fuel
  induction fuel with
  | zero => intro l pr h; simp [groupGreedy3] at h
  | succ n ih =>
      intro l pr h
      cases l with
      | nil => simp [groupGreedy3] at h
      | cons f rest =>
          simp only [groupGreedy3, List.mem_cons] at h
          rcases h with rfl | h
          · refine ⟨List.mem_cons_self _ _, ?_⟩
            intro q hq
            exact List.mem_cons_of_mem _ (List.mem_filter.mp hq).1
          · obtain ⟨h1, h2⟩ := ih _ _ h
            refine ⟨List.mem_cons_of_mem _ (List.mem_of_mem_filter h1), ?_⟩
            intro q hq
            exact List.mem_cons_of_mem _ (List.mem_of_mem_filter (h2 q hq))

/-- The greedy 3d grouping produces at most one group per input flock. -/
theorem groupGreedy3_length (thr : ℚ) :
    ∀ (fuel : ℕ) (l : List TPoint),
      (groupGreedy3 thr fuel l).length ≤ l.length := by
  intro fuel
  induction fuel with
  | zero => intro l; simp [groupGreedy3]
  | succ n ih =>
      intro l
      cases l with
      | nil => simp [groupGreedy3]
      | cons f rest =>
          simp only [groupGreedy3, List.length_cons]
          have := ih (rest.filter (fun g => ¬ closeB3 thr f g))
          have hf := List.length_filter_le (fun g => ¬ closeB3 thr f g) rest
          omega

/-- Merging a group of flocks yields a Flock point. -/
theorem mergeGroup3_flock (seed : TPoint) (near : List TPoint)
    (h : seed.cls = "Flock") : (mergeGroup3 seed near).cls = "Flock" := by
  unfold mergeGroup3
  split
  · exact h
  · rfl

/-- Claim C10: the 3d flock merge returns every non-Flock point
unchanged (as a sublist, in their original order), never increases the
number of Flock points, and every Flock point it outputs carries either
the position of an input Flock point or the coordinate-wise mean of the
positions of its (input-Flock) merge group. -/
theorem c10_flock_merge (pts : List TPoint) (thr : ℚ) :
    ((merge_nearby_flocks_3d pts thr).filter (fun p => p.cls != "Flock") =
      pts.filter (fun p => p.cls != "Flock")) ∧
    (((merge_nearby_flocks_3d pts thr).filter (fun p => p.cls == "Flock")).length ≤
      (pts.filter (fun p => p.cls == "Flock")).length) ∧
    (∀ q ∈ merge_nearby_flocks_3d pts thr, q.cls = "Flock" →
      (∃ p ∈ pts, p.cls = "Flock" ∧ q.x = p.x ∧ q.y = p.y ∧ q.z = p.z) ∨
      ∃ g : List TPoint, g ≠ [] ∧ (∀ p ∈ g, p ∈ pts ∧ p.cls = "Flock") ∧
        q.x = (g.map (fun p => p.x)).sum / (g.length : ℚ) ∧
        q.y = (g.map (fun p => p.y)).sum / (g.length : ℚ) ∧
        q.z = (g.map (fun p => p.z)).sum / (g.length : ℚ)) := by
  have hident : merge_nearby_flocks_3d pts thr = pts →
      ((merge_nearby_flocks_3d pts thr).filter (fun p => p.cls != "Flock") =
        pts.filter (fun p => p.cls != "Flock")) ∧
      (((merge_nearby_flocks_3d pts thr).filter (fun p => p.cls == "Flock")).length ≤
        (pts.filter (fun p => p.cls == "Flock")).length) ∧
      (∀ q ∈ merge_nearby_flocks_3d pts thr, q.cls = "Flock" →
        (∃ p ∈ pts, p.cls = "Flock" ∧ q.x = p.x ∧ q.y = p.y ∧ q.z = p.z) ∨
        ∃ g : List TPoint, g ≠ [] ∧ (∀ p ∈ g, p ∈ pts ∧ p.cls = "Flock") ∧
          q.x = (g.map (fun p => p.x)).sum / (g.length : ℚ) ∧
          q.y = (g.map (fun p => p.y)).sum / (g.length : ℚ) ∧
          q.z = (g.map (fun p => p.z)).sum / (g.length : ℚ)) := by
    intro he
    rw [he]
    refine ⟨rfl, le_refl _, ?_⟩
    intro q hq hcls
    exact Or.inl ⟨q, hq, hcls, rfl, rfl, rfl⟩
  by_cases h0 : pts.isEmpty
  · exact hident (by simp [merge_nearby_flocks_3d, h0])
  · by_cases h1 : (pts.filter (fun p => p.cls == "Flock")).length ≤ 1
    · exact hident (by simp [merge_nearby_flocks_3d, h0, h1])
    · set fl := pts.filter (fun p => p.cls == "Flock") with hfl
      set ot := pts.filter (fun p => p.cls != "Flock") with hot
      set gg := (groupGreedy3 thr fl.length fl).map
        (fun g => mergeGroup3 g.1 g.2) with hggdef
      have hout : merge_nearby_flocks_3d pts thr = gg ++ ot := by
        simp only [merge_nearby_flocks_3d]
        rw [if_neg h0, if_neg h1]
      have hmapflock : ∀ q ∈ gg, q.cls = "Flock" := by
        intro q hq
        rw [hggdef] at hq
        obtain ⟨pr, hpr, rfl⟩ := List.mem_map.mp hq
        have hseed := (groupGreedy3_mem thr _ _ pr hpr).1
        rw [hfl] at hseed
        exact mergeGroup3_flock _ _
          (by simpa using (List.mem_filter.mp hseed).2)
      have hotmem : ∀ a ∈ ot, (a.cls == "Flock") = false := by
        intro a ha
        rw [hot] at ha
        have h := (List.mem_filter.mp ha).2
        simpa using h
      rw [hout]
      refine ⟨?_, ?_, ?_⟩
      · rw [List.filter_append]
        have e1 : gg.filter (fun p => p.cls != "Flock") = [] := by
          rw [List.filter_eq_nil_iff]
          intro a ha
          simp [hmapflock a ha]
        have e2 : ot.filter (fun p => p.cls != "Flock") = ot := by
          rw [List.filter_eq_self]
          intro a ha
          simpa using hotmem a ha
        rw [e1, e2, List.nil_append]
      · rw [List.filter_append]
        have e1 : gg.filter (fun p => p.cls == "Flock") = gg := by
          rw [List.filter_eq_self]
          intro a ha
          simp [hmapflock a ha]
        have e2 : ot.filter (fun p => p.cls == "Flock") = [] := by
          rw [List.filter_eq_nil_iff]
          intro a ha
          simp [hotmem a ha]
        rw [e1, e2, List.append_nil, hggdef, List.length_map]
        exact groupGreedy3_length thr _ _
      · intro q hq hcls
        rcases List.mem_append.mp hq with hq | hq
        · rw [hggdef] at hq
          obtain ⟨pr, hpr, rfl⟩ := List.mem_map.mp hq
          obtain ⟨hseed, hmem⟩ := groupGreedy3_mem thr _ _ pr hpr
          rw [hfl] at hseed
          by_cases hne : pr.2.isEmpty
          · left
            have hmg : mergeGroup3 pr.1 pr.2 = pr.1 := by
              unfold mergeGroup3
              rw [if_pos hne]
            rw [hmg]
            have hin := List.mem_filter.mp hseed
            exact ⟨pr.1, hin.1, by simpa using hin.2, rfl, rfl, rfl⟩
          · right
            refine ⟨pr.1 :: pr.2, by simp, ?_, ?_, ?_, ?_⟩
            · intro p hp
              rcases List.mem_cons.mp hp with rfl | hp
              · have hin := List.mem_filter.mp hseed
                exact ⟨hin.1, by simpa using hin.2⟩
              · have hp' := hmem p hp
                rw [hfl] at hp'
                have hin := List.mem_filter.mp hp'
                exact ⟨hin.1, by simpa using hin.2⟩
            all_goals
              unfold mergeGroup3
              rw [if_neg hne]
        · exact absurd (hcls ▸ hotmem q hq) (by simp)

/-- Witness for c10_flock_merge: the merged flock of mergeSample carries
the mean of its two-element merge group. -/
theorem c10_flock_merge_witness :
    (∃ p ∈ mergeSample, p.cls = "Flock" ∧ mergedFlockPoint.x = p.x ∧
      mergedFlockPoint.y = p.y ∧ mergedFlockPoint.z = p.z) ∨
    ∃ g : List TPoint, g ≠ [] ∧ (∀ p ∈ g, p ∈ mergeSample ∧ p.cls = "Flock") ∧
      mergedFlockPoint.x = (g.map (fun p => p.x)).sum / (g.length : ℚ) ∧
      mergedFlockPoint.y = (g.map (fun p => p.y)).sum / (g.length : ℚ) ∧
      mergedFlockPoint.z = (g.map (fun p => p.z)).sum / (g.length : ℚ) :=
  (c10_flock_merge mergeSample 100).2.2 mergedFlockPoint
    (by
      simp [merge_nearby_flocks_3d, mergeSample, mergedFlockPoint, groupGreedy3,
        mergeGroup3, closeB3, sqrtLtB]
      norm_num
      exact Or.inl rfl)
    rfl

/-! ## C2 -/

set_option maxHeartbeats 2000000 in
/-- Claim C2 counterexample: on two exact projections of the world point
(20000, 0, 0), the realtime path emits a TriangulatedPoint with
x = 20000 > 10000 — it applies no coordinate filter (only the batch path
does). -/
theorem c2_counterexample :
    triangulate_objects_realtime dltKernelPrim farDets [sampleP1, sampleP2]
        ["A", "B"] 1 100 =
      [⟨1, "Airplane", 20000, 0, 0, 1, "Camera_A-Camera_B"⟩] ∧
    ¬ (|(20000 : ℚ)| ≤ 10000) := by
  constructor
  · have hker : dltKernelPrim (20000, 0) (0, 0) sampleP1 sampleP2 =
        some ⟨-20000, 0, 0, -1⟩ := by
      norm_num [dltKernelPrim, dltMatrix, sampleP1, sampleP2, V4.sub, V4.smul,
        M44.det, M44.cofRow, M44.cof, M44.rowsWithout, V4.drop, det3, V4.dot,
        List.find?,
        (show ((0 : Fin 4)).val = 0 from rfl), (show ((1 : Fin 4)).val = 1 from rfl),
        (show ((2 : Fin 4)).val = 2 from rfl), (show ((3 : Fin 4)).val = 3 from rfl)]
    have htp : triangulate_point dltKernelPrim (20000, 0) (0, 0) sampleP1 sampleP2 =
        some (20000, 0, 0) := by
      simp only [triangulate_point, hker]
      norm_num
    have htp0 : triangulate_point dltKernelPrim (20000, 0) 0 sampleP1 sampleP2 =
        some (20000, 0, 0) := by
      simpa using htp
    simp [triangulate_objects_realtime, farDets, orderedKeys, pairsOf,
      match_objects_simple, extractFirst, merge_nearby_flocks_3d,
      List.findIdx_cons, List.getD, htp0]
  · rw [abs_of_pos (by norm_num)]
    norm_num

/-- Sum of a list of rationals bounded in absolute value by B is bounded
by B times the length. -/
theorem abs_sum_le_mul_length (B : ℚ) :
    ∀ l : List ℚ, (∀ x ∈ l, |x| ≤ B) → |l.sum| ≤ B * l.length := by
  intro l
  induction l with
  | nil => intro _; simp
  | cons x xs ih =>
      intro h
      have hx := h x (List.mem_cons_self _ _)
      have hxs := ih (fun y hy => h y (List.mem_cons_of_mem _ hy))
      have htri : |(x :: xs).sum| ≤ |x| + |xs.sum| := by
        simpa [List.sum_cons] using abs_add x xs.sum
      have hlen : ((x :: xs).length : ℚ) = (xs.length : ℚ) + 1 := by
        push_cast [List.length_cons]
        ring
      rw [hlen]
      nlinarith [htri]

/-- The mean of a nonempty list of rationals bounded in absolute value by
B is itself bounded by B. -/
theorem abs_mean_le (l : List ℚ) (B : ℚ) (h : ∀ x ∈ l, |x| ≤ B)
    (hne : l ≠ []) : |l.sum / (l.length : ℚ)| ≤ B := by
  have hlen : (0 : ℚ) < (l.length : ℚ) := by
    have : 0 < l.length := List.length_pos.mpr hne
    exact_mod_cast this
  rw [abs_div, abs_of_pos hlen, div_le_iff hlen]
  exact abs_sum_le_mul_length B l h

/-- Every key produced by orderedKeys is the key of some list element. -/
theorem orderedKeys_mem {α : Type} (keyOf : α → String) :
    ∀ (l : List α) (acc : List String) (c : String),
      c ∈ l.foldl (fun ks d =>
        if ks.any (fun k => k == keyOf d) then ks else ks ++ [keyOf d]) acc →
      c ∈ acc ∨ ∃ p ∈ l, keyOf p = c := by
  intro l
  induction l with
  | nil => intro acc c h; exact Or.inl h
  | cons d ds ih =>
      intro acc c h
      simp only [List.foldl_cons] at h
      rcases ih _ c h with h' | ⟨p, hp, hpc⟩
      · by_cases hin : acc.any (fun k => k == keyOf d)
        · rw [if_pos hin] at h'
          exact Or.inl h'
        · rw [if_neg hin] at h'
          rcases List.mem_append.mp h' with h'' | h''
          · exact Or.inl h''
          · right
            refine ⟨d, List.mem_cons_self _ _, ?_⟩
            exact (by simpa using h'' : c = keyOf d).symm
      · exact Or.inr ⟨p, List.mem_cons_of_mem _ hp, hpc⟩

/-- Every per-pair candidate of the batch path survives the
|coordinate| > 10000 outlier filter. -/
theorem batchCandidates_bounded (prim : TriPrim)
    (dets : List (Option (List YoloDet))) (Ps : List M34) (frame : ℤ)
    (valid : List ℕ) (nc : ℕ) (p : CandPoint)
    (hp : p ∈ batchCandidates prim dets Ps frame valid nc) :
    |p.x| ≤ 10000 ∧ |p.y| ≤ 10000 ∧ |p.z| ≤ 10000 := by
  unfold batchCandidates at hp
  obtain ⟨pr, _, hmem⟩ := List.mem_flatMap.mp hp
  obtain ⟨m, _, hf⟩ := List.mem_filterMap.mp hmem
  rcases htri : triangulate_point prim m.pt1 m.pt2
      (Ps.getD pr.1 default) (Ps.getD pr.2 default) with _ | pt
  · simp only [htri] at hf
    simp at hf
  · simp only [htri] at hf
    by_cases hbig : 10000 < |pt.1| ∨ 10000 < |pt.2.1| ∨ 10000 < |pt.2.2|
    · rw [if_pos hbig] at hf
      simp at hf
    · rw [if_neg hbig] at hf
      push_neg at hbig
      obtain rfl := Option.some.inj hf
      exact ⟨hbig.1, hbig.2.1, hbig.2.2⟩

/-- Group means preserve a coordinate bound on the candidates. -/
theorem mergeByClass_bounded (tp : List CandPoint) (frame : ℤ) (nc : ℕ)
    (h : ∀ p ∈ tp, |p.x| ≤ 10000 ∧ |p.y| ≤ 10000 ∧ |p.z| ≤ 10000)
    (q : MergedPoint) (hq : q ∈ mergeByClass tp frame nc) :
    |q.x| ≤ 10000 ∧ |q.y| ≤ 10000 ∧ |q.z| ≤ 10000 := by
  unfold mergeByClass at hq
  obtain ⟨c, hc, rfl⟩ := List.mem_map.mp hq
  obtain ⟨p0, hp0, hp0c⟩ :=
    ((orderedKeys_mem (fun p : CandPoint => p.cls) tp [] c) hc).resolve_left
      (by simp)
  have hgne : tp.filter (fun p => p.cls == c) ≠ [] :=
    List.ne_nil_of_mem (List.mem_filter.mpr ⟨hp0, by simp [hp0c]⟩)
  refine ⟨?_, ?_, ?_⟩
  · have hb := abs_mean_le ((tp.filter (fun p => p.cls == c)).map (fun p => p.x))
      10000 ?_ (by simpa using hgne)
    · simpa using hb
    · intro v hv
      obtain ⟨pc, hpc, rfl⟩ := List.mem_map.mp hv
      exact (h pc (List.mem_of_mem_filter hpc)).1
  · have hb := abs_mean_le ((tp.filter (fun p => p.cls == c)).map (fun p => p.y))
      10000 ?_ (by simpa using hgne)
    · simpa using hb
    · intro v hv
      obtain ⟨pc, hpc, rfl⟩ := List.mem_map.mp hv
      exact (h pc (List.mem_of_mem_filter hpc)).2.1
  · have hb := abs_mean_le ((tp.filter (fun p => p.cls == c)).map (fun p => p.z))
      10000 ?_ (by simpa using hgne)
    · simpa using hb
    · intro v hv
      obtain ⟨pc, hpc, rfl⟩ := List.mem_map.mp hv
      exact (h pc (List.mem_of_mem_filter hpc)).2.2

/-- Claim C2 (amended, the part the code enforces): every merged point
the batch path (process_frame_multicam) outputs has |x|, |y|, |z| all at
most 10000, for every triangulation primitive and every input — the
candidates are filtered and group means preserve the bound.  (By
c2_counterexample, the realtime path enforces no such bound.) -/
theorem c2_batch_bound (prim : TriPrim) (dets : List (Option (List YoloDet)))
    (Ps : List M34) (frame : ℤ) (q : MergedPoint)
    (hq : q ∈ process_frame_multicam prim dets Ps frame) :
    |q.x| ≤ 10000 ∧ |q.y| ≤ 10000 ∧ |q.z| ≤ 10000 := by
  unfold process_frame_multicam at hq
  by_cases h2 : dets.length < 2
  · rw [if_pos h2] at hq
    simp at hq
  · rw [if_neg h2] at hq
    simp only at hq
    by_cases h3 : ((List.range dets.length).filter
        (fun i => (dets.getD i none).isSome)).length < 2
    · rw [if_pos h3] at hq
      simp at hq
    · rw [if_neg h3] at hq
      exact mergeByClass_bounded _ _ _
        (fun p hp => batchCandidates_bounded prim dets Ps frame _ _ p hp) q hq

set_option maxHeartbeats 2000000 in
/-- Witness for c2_batch_bound on the single merged point the batch path
produces from nearBatchDets. -/
theorem c2_batch_bound_witness :
    |nearBatchPoint.x| ≤ 10000 ∧ |nearBatchPoint.y| ≤ 10000 ∧
      |nearBatchPoint.z| ≤ 10000 :=
  c2_batch_bound dltKernelPrim nearBatchDets [sampleP1, sampleP2] 7 nearBatchPoint
    (by
      have hker : dltKernelPrim (4, 0) (0, 0) sampleP1 sampleP2 =
          some ⟨-4, 0, 0, -1⟩ := by
        norm_num [dltKernelPrim, dltMatrix, sampleP1, sampleP2, V4.sub, V4.smul,
          M44.det, M44.cofRow, M44.cof, M44.rowsWithout, V4.drop, det3, V4.dot,
          List.find?,
          (show ((0 : Fin 4)).val = 0 from rfl),
          (show ((1 : Fin 4)).val = 1 from rfl),
          (show ((2 : Fin 4)).val = 2 from rfl),
          (show ((3 : Fin 4)).val = 3 from rfl)]
      have htp : triangulate_point dltKernelPrim (4, 0) (0, 0) sampleP1 sampleP2 =
          some (4, 0, 0) := by
        simp only [triangulate_point, hker]
        norm_num
      have htp0 : triangulate_point dltKernelPrim (4, 0) 0 sampleP1 sampleP2 =
          some (4, 0, 0) := by
        simpa using htp
      simp [process_frame_multicam, mergeByClass, batchCandidates, nearBatchDets,
        nearBatchPoint, orderedKeys, pairsOf, match_objects_yolo, buildOthers,
        flocksOf, updateAssoc, lookupAssoc, merge_nearby_flocks_2d, groupGreedy2,
        List.filterMap_cons, List.filterMap_nil, htp0,
        (show List.range (nearBatchDets.length) = [0, 1] from rfl),
        (show List.range 2 = [0, 1] from rfl),
        (show nearBatchDets.length = 2 from rfl),
        (show (nearBatchDets[0]?.getD none) =
          some [⟨⟨4, 0, 5, 5⟩, "Airplane", 1⟩] from rfl),
        (show (nearBatchDets[1]?.getD none) =
          some [⟨⟨0, 0, 5, 5⟩, "Airplane", 1⟩] from rfl),
        (show ([sampleP1, sampleP2][0]?.getD default) = sampleP1 from rfl),
        (show ([sampleP1, sampleP2][1]?.getD default) = sampleP2 from rfl)]
      norm_num)

/-! ## C6 -/

/-- If extractFirst finds nothing, no element satisfies the predicate. -/
theorem extractFirst_none {α : Type} (p : α → Bool) :
    ∀ l : List α, extractFirst p l = none → ∀ x ∈ l, p x = false := by
  intro l
  induction l with
  | nil => intro _ x hx; simp at hx
  | cons a as ih =>
      intro h x hx
      unfold extractFirst at h
      by_cases hp : p a
      · rw [if_pos hp] at h
        simp at h
      · rw [if_neg hp] at h
        rcases List.mem_cons.mp hx with rfl | hx'
        · simpa using hp
        · rcases hext : extractFirst p as with _ | pr
          · exact ih hext x hx'
          · rw [hext] at h
            simp at h

/-- What extractFirst returns: the found element satisfies the predicate,
comes from the list, the rest is drawn from the list, and every filter
count drops by exactly the found element's contribution. -/
theorem extractFirst_some {α : Type} (p : α → Bool) :
    ∀ (l l' : List α) (e : α), extractFirst p l = some (e, l') →
      p e = true ∧ e ∈ l ∧ (∀ x ∈ l', x ∈ l) ∧
        ∀ q : α → Bool,
          (l.filter q).length = (l'.filter q).length + (if q e then 1 else 0) := by
  intro l
  induction l with
  | nil => intro l' e h; simp [extractFirst] at h
  | cons a as ih =>
      intro l' e h
      unfold extractFirst at h
      by_cases hp : p a
      · rw [if_pos hp] at h
        simp only [Option.some.injEq, Prod.mk.injEq] at h
        obtain ⟨rfl, rfl⟩ := h
        refine ⟨hp, List.mem_cons_self _ _,
          fun x hx => List.mem_cons_of_mem _ hx, ?_⟩
        intro q
        rw [List.filter_cons]
        by_cases hq : q a
        · rw [if_pos hq, if_pos hq]
          simp
        · rw [if_neg hq, if_neg hq]
          simp
      · rw [if_neg hp] at h
        rcases hext : extractFirst p as with _ | ⟨y, ys⟩
        · rw [hext] at h
          simp at h
        · rw [hext] at h
          simp only [Option.some.injEq, Prod.mk.injEq] at h
          obtain ⟨rfl, rfl⟩ := h
          obtain ⟨h1, h2, h3, h4⟩ := ih ys y hext
          refine ⟨h1, List.mem_cons_of_mem _ h2, ?_, ?_⟩
          · intro x hx
            rcases List.mem_cons.mp hx with rfl | hx'
            · exact List.mem_cons_self _ _
            · exact List.mem_cons_of_mem _ (h3 x hx')
          · intro q
            rw [List.filter_cons, List.filter_cons]
            by_cases hq : q a
            · rw [if_pos hq, if_pos hq]
              simp only [List.length_cons, h4 q]
              omega
            · rw [if_neg hq, if_neg hq]
              exact h4 q

/-- Every match of match_objects_simple pairs two detections of its own
class, drawn from the two cameras. -/
theorem match_objects_simple_mem :
    ∀ (d1 d2 : List Det) (m : SimpleMatch), m ∈ match_objects_simple d1 d2 →
      m.det1.cls = m.cls ∧ m.det2.cls = m.cls ∧ m.det1 ∈ d1 ∧ m.det2 ∈ d2 := by
  intro d1
  induction d1 with
  | nil => intro d2 m h; simp [match_objects_simple] at h
  | cons d ds ih =>
      intro d2 m h
      unfold match_objects_simple at h
      rcases hext : extractFirst (fun e => e.cls == d.cls) d2 with _ | ⟨e, rem⟩
      · rw [hext] at h
        obtain ⟨h1, h2, h3, h4⟩ := ih d2 m h
        exact ⟨h1, h2, List.mem_cons_of_mem _ h3, h4⟩
      · rw [hext] at h
        obtain ⟨hp, hmem, hsub, _⟩ := extractFirst_some _ _ _ _ hext
        rcases List.mem_cons.mp h with rfl | h'
        · exact ⟨rfl, by simpa using hp, List.mem_cons_self _ _, hmem⟩
        · obtain ⟨h1, h2, h3, h4⟩ := ih rem m h'
          exact ⟨h1, h2, List.mem_cons_of_mem _ h3, hsub _ h4⟩

/-- match_objects_simple produces, for every class, exactly
min(count in camera 1, count in camera 2) matches. -/
theorem match_objects_simple_count :
    ∀ (d1 d2 : List Det) (c : String),
      ((match_objects_simple d1 d2).filter (fun m => m.cls == c)).length =
        min ((d1.filter (fun d => d.cls == c)).length)
            ((d2.filter (fun d => d.cls == c)).length) := by
  intro d1
  induction d1 with
  | nil => intro d2 c; simp [match_objects_simple]
  | cons d ds ih =>
      intro d2 c
      have huf : match_objects_simple (d :: ds) d2 =
          match extractFirst (fun e => e.cls == d.cls) d2 with
          | some (e, rem') => { cls := d.cls, det1 := d, det2 := e } ::
              match_objects_simple ds rem'
          | none => match_objects_simple ds d2 := by
        rfl
      rw [huf]
      rcases hext : extractFirst (fun e => e.cls == d.cls) d2 with _ | ⟨e, rem⟩
      · rw [hext]
        dsimp only
        have hnone := extractFirst_none _ _ hext
        rw [List.filter_cons]
        by_cases hc : d.cls = c
        · subst hc
          have hd2 : d2.filter (fun x => x.cls == d.cls) = [] := by
            rw [List.filter_eq_nil_iff]
            intro a ha
            simpa using hnone a ha
          rw [ih d2 d.cls, hd2]
          simp
        · have hcne : (d.cls == c) = false := by simpa using hc
          rw [hcne]
          simp only [Bool.false_eq_true, if_false]
          exact ih d2 c
      · rw [hext]
        dsimp only
        obtain ⟨hp, hmem, hsub, hcount⟩ := extractFirst_some _ _ _ _ hext
        have hecls : e.cls = d.cls := by simpa using hp
        rw [List.filter_cons, List.filter_cons]
        have hrem := hcount (fun x => x.cls == c)
        by_cases hc : d.cls = c
        · subst hc
          have hecls' : (e.cls == d.cls) = true := by simpa using hecls
          simp only [beq_self_eq_true, if_true, List.length_cons,
            ih rem d.cls, hrem, hecls']
          omega
        · have hcne : (d.cls == c) = false := by simpa using hc
          have hecne : (e.cls == c) = false := by
            rw [hecls]
            simpa using hc
          simp only [hcne, Bool.false_eq_true, if_false, ih rem c, hrem, hecne]
          omega

/-- Lookup skips an entry with a different key. -/
theorem lookupAssoc_cons_neg {α : Type} (e : String × α) (l : List (String × α))
    (k : String) (h : (e.1 == k) = false) :
    lookupAssoc (e :: l) k = lookupAssoc l k := by
  simp [lookupAssoc, List.find?, h]

/-- Lookup returns an entry whose key matches. -/
theorem lookupAssoc_cons_pos {α : Type} (e : String × α) (l : List (String × α))
    (k : String) (h : (e.1 == k) = true) :
    lookupAssoc (e :: l) k = some e.2 := by
  simp [lookupAssoc, List.find?, h]

/-- Replacing the entry at key k makes lookup at k return the new value. -/
theorem lookup_map_update {α : Type} (k : String) (v : α) :
    ∀ l : List (String × α), l.any (fun e => e.1 == k) = true →
      lookupAssoc (l.map (fun e => if e.1 == k then (k, v) else e)) k = some v := by
  intro l
  induction l with
  | nil => intro h; simp at h
  | cons e es ih =>
      intro h
      rw [List.map_cons]
      by_cases he : (e.1 == k) = true
      · rw [if_pos he, lookupAssoc_cons_pos _ _ _ (by simp)]
      · rw [if_neg (by simp [he]), lookupAssoc_cons_neg _ _ _ (by simpa using he)]
        apply ih
        simp only [List.any_cons, he] at h
        simpa using h

/-- Appending a fresh entry makes lookup at its key return its value. -/
theorem lookup_append_singleton {α : Type} (k : String) (v : α) :
    ∀ l : List (String × α), l.any (fun e => e.1 == k) = false →
      lookupAssoc (l ++ [(k, v)]) k = some v := by
  intro l
  induction l with
  | nil => intro _; rw [List.nil_append, lookupAssoc_cons_pos _ _ _ (by simp)]
  | cons e es ih =>
      intro h
      simp only [List.any_cons, Bool.or_eq_false_iff] at h
      rw [List.cons_append, lookupAssoc_cons_neg _ _ _ h.1]
      exact ih h.2

/-- Python dict assignment then lookup at the same key. -/
theorem lookup_updateAssoc_self {α : Type} (l : List (String × α)) (k : String)
    (v : α) : lookupAssoc (updateAssoc l k v) k = some v := by
  unfold updateAssoc
  by_cases h : l.any (fun e => e.1 == k) = true
  · rw [if_pos h]
    exact lookup_map_update k v l h
  · rw [if_neg h]
    exact lookup_append_singleton k v l
      (by simp only [Bool.not_eq_true] at h; exact h)

/-- Replacing the entry at key k leaves other lookups unchanged. -/
theorem lookup_map_update_other {α : Type} (k : String) (v : α) (c : String)
    (hck : ¬ c = k) :
    ∀ l : List (String × α),
      lookupAssoc (l.map (fun e => if e.1 == k then (k, v) else e)) c =
        lookupAssoc l c := by
  have hkc : ¬ k = c := fun hh => hck hh.symm
  intro l
  induction l with
  | nil => rfl
  | cons e es ih =>
      rw [List.map_cons]
      by_cases he : (e.1 == k) = true
      · have hek : e.1 = k := by simpa using he
        rw [if_pos he, lookupAssoc_cons_neg _ _ _ (by simp [hkc]),
          lookupAssoc_cons_neg _ _ _ (by simp [hek, hkc])]
        exact ih
      · rw [if_neg (by simp [he])]
        by_cases hec : (e.1 == c) = true
        · rw [lookupAssoc_cons_pos _ _ _ hec, lookupAssoc_cons_pos _ _ _ hec]
        · rw [lookupAssoc_cons_neg _ _ _ (by simpa using hec),
            lookupAssoc_cons_neg _ _ _ (by simpa using hec)]
          exact ih

/-- Appending a fresh entry leaves other lookups unchanged. -/
theorem lookup_append_singleton_other {α : Type} (k : String) (v : α) (c : String)
    (hck : ¬ c = k) :
    ∀ l : List (String × α), lookupAssoc (l ++ [(k, v)]) c = lookupAssoc l c := by
  have hkc : ¬ k = c := fun hh => hck hh.symm
  intro l
  induction l with
  | nil =>
      rw [List.nil_append, lookupAssoc_cons_neg _ _ _ (by simp [hkc])]
  | cons e es ih =>
      rw [List.cons_append]
      by_cases hec : (e.1 == c) = true
      · rw [lookupAssoc_cons_pos _ _ _ hec, lookupAssoc_cons_pos _ _ _ hec]
      · rw [lookupAssoc_cons_neg _ _ _ (by simpa using hec),
          lookupAssoc_cons_neg _ _ _ (by simpa using hec)]
        exact ih

/-- Python dict assignment leaves other lookups unchanged. -/
theorem lookup_updateAssoc_other {α : Type} (l : List (String × α)) (k : String)
    (v : α) (c : String) (hck : ¬ c = k) :
    lookupAssoc (updateAssoc l k v) c = lookupAssoc l c := by
  unfold updateAssoc
  by_cases h : l.any (fun e => e.1 == k) = true
  · rw [if_pos h]
    exact lookup_map_update_other k v c hck l
  · rw [if_neg h]
    exact lookup_append_singleton_other k v c hck l

/-- Python dict assignment keeps the key list, or appends the new key. -/
theorem updateAssoc_keys {α : Type} (l : List (String × α)) (k : String) (v : α) :
    (updateAssoc l k v).map (fun e => e.1) =
      if l.any (fun e => e.1 == k) = true then l.map (fun e => e.1)
      else l.map (fun e => e.1) ++ [k] := by
  unfold updateAssoc
  by_cases h : l.any (fun e => e.1 == k) = true
  · rw [if_pos h, if_pos h, List.map_map]
    apply List.map_congr_left
    intro e _
    by_cases he : (e.1 == k) = true
    · have : e.1 = k := by simpa using he
      simp [he, this]
    · have hne : ¬ e.1 = k := by simpa using he
      simp [hne]
  · rw [if_neg h, if_neg h, List.map_append]
    rfl

/-- Lookup succeeds exactly on the stored keys. -/
theorem lookupAssoc_isSome_iff {α : Type} :
    ∀ (l : List (String × α)) (c : String),
      (lookupAssoc l c).isSome = true ↔ c ∈ l.map (fun e => e.1) := by
  intro l
  induction l with
  | nil => intro c; simp [lookupAssoc]
  | cons e es ih =>
      intro c
      rw [List.map_cons]
      by_cases hec : (e.1 == c) = true
      · rw [lookupAssoc_cons_pos _ _ _ hec]
        simp [show e.1 = c from by simpa using hec]
      · rw [lookupAssoc_cons_neg _ _ _ (by simpa using hec)]
        have hne : ¬ c = e.1 := fun h => by simp [h] at hec
        simp only [List.mem_cons]
        rw [ih c]
        constructor
        · exact Or.inr
        · rintro (h | h)
          · exact absurd h hne
          · exact h

/-- The keys of the others dict are distinct. -/
theorem buildOthers_keys_nodup :
    ∀ (r : List YoloDet) (acc : List (String × BoxQ × ℚ)),
      (acc.map (fun e => e.1)).Nodup →
      ((r.foldl (fun a d =>
          if d.cls == "Flock" then a else updateAssoc a d.cls (d.box, d.conf))
        acc).map (fun e => e.1)).Nodup := by
  intro r
  induction r with
  | nil => intro acc h; exact h
  | cons d rs ih =>
      intro acc h
      rw [List.foldl_cons]
      apply ih
      by_cases hd : (d.cls == "Flock") = true
      · rw [if_pos hd]
        exact h
      · rw [if_neg (by simp [hd]), updateAssoc_keys]
        by_cases hany : acc.any (fun e => e.1 == d.cls) = true
        · rw [if_pos hany]
          exact h
        · rw [if_neg (by simpa using hany)]
          rw [List.nodup_append]
          refine ⟨h, List.nodup_singleton _, ?_⟩
          intro a ha ha'
          simp only [List.mem_singleton] at ha'
          subst ha'
          obtain ⟨e, he, heq⟩ := List.mem_map.mp ha
          simp only [List.any_eq_true, not_exists] at hany
          have := hany e
          simp [he, heq] at this

/-- A nonempty list has a last element. -/
theorem getLast?_cons_eq_some {α : Type} :
    ∀ (b : α) (bs : List α), ∃ v, (b :: bs).getLast? = some v := by
  intro b bs
  induction bs generalizing b with
  | nil => exact ⟨b, rfl⟩
  | cons c cs ih =>
      obtain ⟨v, hv⟩ := ih c
      exact ⟨v, by rw [List.getLast?_cons_cons, hv]⟩

/-- A list with no last element is empty. -/
theorem getLast?_eq_none_of {α : Type} :
    ∀ l : List α, l.getLast? = none → l = [] := by
  intro l h
  cases l with
  | nil => rfl
  | cons b bs =>
      obtain ⟨v, hv⟩ := getLast?_cons_eq_some b bs
      rw [hv] at h
      exact Option.noConfusion h

/-- Consing onto a nonempty list keeps its last element. -/
theorem getLast?_cons_of_ne_nil {α : Type} (a : α) :
    ∀ l : List α, l ≠ [] → (a :: l).getLast? = l.getLast? := by
  intro l h
  cases l with
  | nil => exact absurd rfl h
  | cons b bs => exact List.getLast?_cons_cons

/-- Lookup in the others dict returns the LAST detection of a class
(each Python dict assignment overwrites the previous one). -/
theorem buildOthers_lookup (c : String) (hc : ¬ c = "Flock") :
    ∀ (r : List YoloDet) (acc : List (String × BoxQ × ℚ)),
      lookupAssoc (r.foldl (fun a d =>
          if d.cls == "Flock" then a else updateAssoc a d.cls (d.box, d.conf))
        acc) c =
      ((r.filter (fun d => d.cls == c)).getLast?).elim
        (lookupAssoc acc c) (fun d => some (d.box, d.conf)) := by
  intro r
  induction r with
  | nil => intro acc; rfl
  | cons d rs ih =>
      intro acc
      rw [List.foldl_cons, ih, List.filter_cons]
      by_cases hdc : (d.cls == c) = true
      · rw [if_pos hdc]
        have hdcc : d.cls = c := by simpa using hdc
        have hdf : (d.cls == "Flock") = false := by simp [hdcc, hc]
        rw [if_neg (by simp [hdf])]
        rcases hfil : rs.filter (fun d => d.cls == c) with _ | ⟨e, es⟩
        · rw [hfil]
          show lookupAssoc (updateAssoc acc d.cls (d.box, d.conf)) c =
            some (d.box, d.conf)
          rw [hdcc, lookup_updateAssoc_self]
        · rw [hfil, getLast?_cons_of_ne_nil d (e :: es) (by simp)]
          obtain ⟨v, hv⟩ := getLast?_cons_eq_some e es
          rw [hv]
          rfl
      · rw [if_neg hdc]
        by_cases hdf : (d.cls == "Flock") = true
        · rw [if_pos hdf]
        · rw [if_neg hdf,
            lookup_updateAssoc_other acc d.cls _ c
              (fun h => hdc (by simp [h]))]


/-- Filtering the common-class matches of match_objects_yolo down to one
class c: the single record built from the two dict entries at c, present
exactly when c is a key of both dicts. -/
theorem commonFilter_spec (o1 o2 : List (String × BoxQ × ℚ)) (c : String) :
    ∀ ks : List String, ks.Nodup →
      (∀ k ∈ ks, (lookupAssoc o1 k).isSome = true) →
      ((ks.filter (fun k => (lookupAssoc o2 k).isSome)).filterMap (fun k =>
          match lookupAssoc o1 k, lookupAssoc o2 k with
          | some (b1, c1), some (b2, c2) =>
              some { cls := k, pt1 := (b1.x, b1.y), pt2 := (b2.x, b2.y),
                     conf1 := c1, conf2 := c2 }
          | _, _ => none)).filter (fun m => m.cls == c) =
        (if c ∈ ks then
          match lookupAssoc o1 c, lookupAssoc o2 c with
          | some (b1, c1), some (b2, c2) =>
              [({ cls := c, pt1 := (b1.x, b1.y), pt2 := (b2.x, b2.y),
                  conf1 := c1, conf2 := c2 } : YMatch)]
          | _, _ => []
        else []) := by
  intro ks
  induction ks with
  | nil => intro _ _; simp
  | cons k ks ih =>
      intro hnd hsome
      obtain ⟨hknotin, hndks⟩ := List.nodup_cons.mp hnd
      have hsk := hsome k (List.mem_cons_self k ks)
      have hsks : ∀ k' ∈ ks, (lookupAssoc o1 k').isSome = true :=
        fun k' h => hsome k' (List.mem_cons_of_mem _ h)
      rw [List.filter_cons]
      by_cases h2 : (lookupAssoc o2 k).isSome = true
      · rw [if_pos h2]
        rcases hl1 : lookupAssoc o1 k with _ | ⟨b1, c1⟩
        · rw [hl1] at hsk
          exact absurd hsk (by simp)
        rcases hl2 : lookupAssoc o2 k with _ | ⟨b2, c2⟩
        · rw [hl2] at h2
          exact absurd h2 (by simp)
        simp only [List.filterMap_cons, hl1, hl2]
        by_cases hkc : (k == c) = true
        · have hkceq : k = c := by simpa using hkc
          subst hkceq
          simp only [List.filter_cons, beq_self_eq_true, if_true]
          rw [ih hndks hsks, if_neg hknotin, if_pos (List.mem_cons_self k ks)]
          simp only [hl1, hl2]
        · have hkcne : (k == c) = false := by simpa using hkc
          simp only [List.filter_cons, hkcne, Bool.false_eq_true, if_false]
          rw [ih hndks hsks]
          by_cases hmem : c ∈ ks
          · rw [if_pos hmem, if_pos (List.mem_cons_of_mem _ hmem)]
          · rw [if_neg hmem, if_neg (fun h => by
              rcases List.mem_cons.mp h with h | h
              · exact hkc (by simp [h])
              · exact hmem h)]
      · rw [if_neg h2, ih hndks hsks]
        by_cases hck : c = k
        · subst hck
          rw [if_neg hknotin, if_pos (List.mem_cons_self c ks)]
          have hl2 : lookupAssoc o2 c = none :=
            Option.not_isSome_iff_eq_none.mp (by simpa using h2)
          rcases hl1 : lookupAssoc o1 c with _ | ⟨b1, c1⟩
          · simp only [hl1, hl2]
          · simp only [hl1, hl2]
        · by_cases hmem : c ∈ ks
          · rw [if_pos hmem, if_pos (List.mem_cons_of_mem _ hmem)]
          · rw [if_neg hmem, if_neg (fun h => by
              rcases List.mem_cons.mp h with h | h
              · exact hck h
              · exact hmem h)]

/-- Every all-pairs flock match carries class Flock. -/
theorem flockMatches_cls (mf1 mf2 : List (BoxQ × ℚ)) (m : YMatch)
    (hm : m ∈ mf1.flatMap (fun b1 => mf2.map (fun b2 =>
      ({ cls := "Flock", pt1 := (b1.1.x, b1.1.y), pt2 := (b2.1.x, b2.1.y),
         conf1 := b1.2, conf2 := b2.2 } : YMatch)))) :
    m.cls = "Flock" := by
  obtain ⟨b1, _, hm2⟩ := List.mem_flatMap.mp hm
  obtain ⟨b2, _, rfl⟩ := List.mem_map.mp hm2
  rfl

/-- C6: what cross-camera matching actually does.  (1) For every
non-Flock class c, match_objects_yolo produces exactly one match when c
occurs in both cameras — built from the LAST detection of c in each
camera, since each dict assignment overwrites the previous one — and no
match otherwise.  (2) Every match of match_objects_simple pairs a
detection of camera 1 with one of camera 2 of the matched class.
(3) match_objects_simple produces, per class, as many matches as the
smaller camera has detections of that class (greedy pairing, not one). -/
theorem c6_matching :
    (∀ (r1 r2 : List YoloDet) (c : String), ¬ c = "Flock" →
      (match_objects_yolo r1 r2).filter (fun m => m.cls == c) =
        (match (r1.filter (fun d => d.cls == c)).getLast?,
               (r2.filter (fun d => d.cls == c)).getLast? with
         | some d1, some d2 =>
             [({ cls := c, pt1 := (d1.box.x, d1.box.y),
                 pt2 := (d2.box.x, d2.box.y),
                 conf1 := d1.conf, conf2 := d2.conf } : YMatch)]
         | _, _ => [])) ∧
    (∀ (d1 d2 : List Det) (m : SimpleMatch), m ∈ match_objects_simple d1 d2 →
      m.det1.cls = m.cls ∧ m.det2.cls = m.cls ∧ m.det1 ∈ d1 ∧ m.det2 ∈ d2) ∧
    (∀ (d1 d2 : List Det) (c : String),
      ((match_objects_simple d1 d2).filter (fun m => m.cls == c)).length =
        min ((d1.filter (fun d => d.cls == c)).length)
            ((d2.filter (fun d => d.cls == c)).length)) := by
  refine ⟨?_, match_objects_simple_mem, match_objects_simple_count⟩
  intro r1 r2 c hc
  simp only [match_objects_yolo]
  rw [List.filter_append]
  have h0 : ((merge_nearby_flocks_2d 100 (flocksOf r1)).flatMap (fun b1 =>
      (merge_nearby_flocks_2d 100 (flocksOf r2)).map (fun b2 =>
        ({ cls := "Flock", pt1 := (b1.1.x, b1.1.y), pt2 := (b2.1.x, b2.1.y),
           conf1 := b1.2, conf2 := b2.2 } : YMatch)))).filter
      (fun m => m.cls == c) = [] := by
    refine List.filter_eq_nil_iff.mpr (fun m hm => ?_)
    rw [flockMatches_cls _ _ m hm]
    intro h
    have h' : "Flock" = c := by simpa using h
    exact hc h'.symm
  rw [h0, List.nil_append]
  rw [commonFilter_spec (buildOthers r1) (buildOthers r2) c
    ((buildOthers r1).map (fun e => e.1))
    (buildOthers_keys_nodup r1 [] (by simp))
    (fun k hk => (lookupAssoc_isSome_iff _ k).mpr hk)]
  have hbo1 : lookupAssoc (buildOthers r1) c =
      ((r1.filter (fun d => d.cls == c)).getLast?).elim none
        (fun d => some (d.box, d.conf)) := by
    unfold buildOthers
    exact buildOthers_lookup c hc r1 []
  have hbo2 : lookupAssoc (buildOthers r2) c =
      ((r2.filter (fun d => d.cls == c)).getLast?).elim none
        (fun d => some (d.box, d.conf)) := by
    unfold buildOthers
    exact buildOthers_lookup c hc r2 []
  rcases hg1 : (r1.filter (fun d => d.cls == c)).getLast? with _ | d1
  · have hnone : lookupAssoc (buildOthers r1) c = none := by
      rw [hbo1, hg1]
      rfl
    have hnotin : c ∉ (buildOthers r1).map (fun e => e.1) := by
      intro h
      have hs := (lookupAssoc_isSome_iff (buildOthers r1) c).mpr h
      rw [hnone] at hs
      simp at hs
    rw [if_neg hnotin, hg1]
  · have hsome1 : lookupAssoc (buildOthers r1) c = some (d1.box, d1.conf) := by
      rw [hbo1, hg1]
      rfl
    have hin : c ∈ (buildOthers r1).map (fun e => e.1) :=
      (lookupAssoc_isSome_iff (buildOthers r1) c).mp (by rw [hsome1]; rfl)
    rw [if_pos hin, hg1, hsome1]
    rcases hg2 : (r2.filter (fun d => d.cls == c)).getLast? with _ | d2
    · have hsome2 : lookupAssoc (buildOthers r2) c = none := by
        rw [hbo2, hg2]
        rfl
      rw [hsome2, hg2]
    · have hsome2 : lookupAssoc (buildOthers r2) c = some (d2.box, d2.conf) := by
        rw [hbo2, hg2]
        rfl
      rw [hsome2, hg2]

/-- C6 counterexample to the spec sentence: with two airplane detections
in camera 1 — boxes at (1, 2) then (3, 4) — the produced match reads the
LAST box (3, 4), not the first (1, 2); and on the simple path two
airplanes per camera yield TWO matches, not one. -/
theorem c6_counterexample :
    (match_objects_yolo yoloR1 yoloR2).map (fun m => m.pt1) = [(3, 4)] ∧
    (match_objects_simple simpleD1 simpleD2).length = 2 := by
  constructor
  · simp [match_objects_yolo, yoloR1, yoloR2, buildOthers, flocksOf,
      merge_nearby_flocks_2d, groupGreedy2, mergeGroup2, updateAssoc,
      lookupAssoc, List.find?, List.filter_cons]
  · simp [match_objects_simple, simpleD1, simpleD2, extractFirst]

/-- The C6 theorem at concrete inputs: on yoloR1/yoloR2 the Airplane
filter is the single match built from the LAST airplane boxes, and the
simple matcher on simpleD1/simpleD2 respects membership and count. -/
theorem c6_matching_witness :
    (match_objects_yolo yoloR1 yoloR2).filter (fun m => m.cls == "Airplane") =
      [({ cls := "Airplane", pt1 := (3, 4), pt2 := (5, 6),
          conf1 := 8 / 10, conf2 := 7 / 10 } : YMatch)] ∧
    ((match_objects_simple simpleD1 simpleD2).filter
        (fun m => m.cls == "Airplane")).length = 2 := by
  constructor
  · rw [c6_matching.1 yoloR1 yoloR2 "Airplane" (by decide)]
    simp [yoloR1, yoloR2, List.filter_cons]
  · rw [c6_matching.2.2 simpleD1 simpleD2 "Airplane"]
    simp [simpleD1, simpleD2, List.filter_cons]

end BirdRiskSim
